import Mathlib

set_option maxRecDepth 10000

/-!
Verification of `src/acvp_hash.c` (libacvp hash KAT/MCT handler) against its
natural-language specification.

The embedding is shallow: byte buffers are `List Nat` (each entry one byte),
buffer reads beyond the written content see the zero backing left by
`calloc`/`memzero_s`, machine loops become fuel-indexed recursions, and
fallible C paths return `Except ACVP_RESULT`.  The external hash engine
(`cap->crypto_handler`) is an abstract function from the test-case state to an
optional digest; the external hex codec is abstract as well.
-/

/-- Modelled from the spec: `ACVP_HASH_MCT_OUTER` is declared in `acvp_lcl.h`,
which is not part of the sources; the spec fixes 100 outer iterations. -/
def ACVP_HASH_MCT_OUTER : Nat := 100

/-- Modelled from the spec: `ACVP_HASH_MCT_INNER` is declared in `acvp_lcl.h`,
which is not part of the sources; the spec fixes 1000 inner rounds. -/
def ACVP_HASH_MCT_INNER : Nat := 1000

/-- Modelled from the spec: maximum digest byte length (`acvp_lcl.h` is not in
the sources).  The spec only requires that it is the "standard digest maximum",
smaller than the message-buffer maximum; 64 bytes = 512 bits. -/
def ACVP_HASH_MD_BYTE_MAX : Nat := 64

/-- Modelled from the spec: maximum message byte length for fixed-output
algorithms (`acvp_lcl.h` is not in the sources). -/
def ACVP_HASH_MSG_BYTE_MAX : Nat := 8192

/-- Modelled from the spec: maximum message byte length for SHAKE; the spec
requires it strictly larger than `ACVP_HASH_MSG_BYTE_MAX`. -/
def ACVP_SHAKE_MSG_BYTE_MAX : Nat := 16384

/-- Modelled from the spec: maximum XOF digest byte length. -/
def ACVP_HASH_XOF_MD_BYTE_MAX : Nat := 8192

/-- Modelled from the spec: minimum XOF output length in bits. -/
def ACVP_HASH_XOF_MD_BIT_MIN : Nat := 16

/-- Modelled from the spec: maximum XOF output length in bits. -/
def ACVP_HASH_XOF_MD_BIT_MAX : Nat := 65536

/-- Modelled from the spec: hex-string capacity for a standard digest
(two hex characters per byte). -/
def ACVP_HASH_MD_STR_MAX : Nat := 2 * ACVP_HASH_MD_BYTE_MAX

/-- Modelled from the spec: hex-string capacity for an XOF digest. -/
def ACVP_HASH_XOF_MD_STR_MAX : Nat := 2 * ACVP_HASH_XOF_MD_BYTE_MAX

/-- Modelled from the spec: hex-string capacity for a fixed-output message. -/
def ACVP_HASH_MSG_STR_MAX : Nat := 2 * ACVP_HASH_MSG_BYTE_MAX

/-- Modelled from the spec: hex-string capacity for a SHAKE message. -/
def ACVP_SHAKE_MSG_STR_MAX : Nat := 2 * ACVP_SHAKE_MSG_BYTE_MAX

/-- Modelled from the spec: the `ACVP_CIPHER` enumeration lives in `acvp.h`,
which is not in the sources.  Only the relative order of the hash-family
identifiers matters (SHA-1, the SHA-2 family, the SHA-3 family, then the SHAKE
algorithms, per the spec's listing); we give them consecutive codes. -/
def ACVP_HASH_SHA1 : Nat := 1

def ACVP_HASH_SHA224 : Nat := 2

def ACVP_HASH_SHA256 : Nat := 3

def ACVP_HASH_SHA384 : Nat := 4

def ACVP_HASH_SHA512 : Nat := 5

def ACVP_HASH_SHA512_224 : Nat := 6

def ACVP_HASH_SHA512_256 : Nat := 7

def ACVP_HASH_SHA3_224 : Nat := 8

def ACVP_HASH_SHA3_256 : Nat := 9

def ACVP_HASH_SHA3_384 : Nat := 10

def ACVP_HASH_SHA3_512 : Nat := 11

def ACVP_HASH_SHAKE_128 : Nat := 12

def ACVP_HASH_SHAKE_256 : Nat := 13

/-- `ACVP_HASH_EXPANSION_REPEATING` (the only supported LDT expansion method);
`0` models the "invalid" value returned by `read_exp_method` on mismatch. -/
def ACVP_HASH_EXPANSION_REPEATING : Nat := 1

/-- Error results of the C `ACVP_RESULT` enumeration that the hash handler can
produce.  Success is modelled by `Except.ok`, so only error codes appear. -/
inductive ACVP_RESULT where
  | ACVP_MALFORMED_JSON
  | ACVP_MISSING_ARG
  | ACVP_INVALID_ARG
  | ACVP_TC_MISSING_DATA
  | ACVP_TC_INVALID_DATA
  | ACVP_CRYPTO_MODULE_FAIL
  | ACVP_INTERNAL_ERR
  | ACVP_UNSUPPORTED_OP
  | ACVP_MALLOC_FAIL
  | ACVP_HEX_FAIL
  deriving DecidableEq, Repr

open ACVP_RESULT

/-- `ACVP_HASH_TESTTYPE` (zero / "invalid" is modelled by `Option`). -/
inductive ACVP_HASH_TESTTYPE where
  | AFT
  | MCT
  | VOT
  | LDT
  deriving DecidableEq, Repr

/-- `ACVP_HASH_MCT_VERSION`. -/
inductive ACVP_HASH_MCT_VERSION where
  | STANDARD
  | ALTERNATE
  deriving DecidableEq, Repr

open ACVP_HASH_TESTTYPE ACVP_HASH_MCT_VERSION

/-- Read `n` bytes from a zero-backed buffer whose written content is `l`:
bytes beyond the written content are the zeroes left by `calloc`/`memzero_s`. -/
def bufRead (l : List Nat) (n : Nat) : List Nat :=
  l.take n ++ List.replicate (n - l.length) 0

/-- safeclib `memcpy_s dest dmax src count`: on success the destination's
written content is the `count` copied bytes (result code 0); if `count` exceeds
`dmax` the copy is refused, the destination bytes are zeroed and a nonzero
result code is returned.  The pair is (new destination content, result). -/
def memcpy_s (dmax : Nat) (src : List Nat) (count : Nat) : List Nat × Nat :=
  if count ≤ dmax then (bufRead src count, 0) else (List.replicate count 0, 1)

/-- The `ACVP_HASH_TC` test-case context.  Byte buffers carry their written
content; `*_len` fields mirror the separate length fields of the C struct.
The `*Cap` fields record the `calloc` sizes chosen by `acvp_hash_init_tc`
(0 = buffer not allocated). -/
structure ACVP_HASH_TC where
  tc_id : Nat := 0
  cipher : Nat := 0
  test_type : Option ACVP_HASH_TESTTYPE := none
  mct_version : Option ACVP_HASH_MCT_VERSION := none
  msg : List Nat := []
  msg_len : Nat := 0
  md : List Nat := []
  md_len : Nat := 0
  m1 : List Nat := []
  m1_len : Nat := 0
  m2 : List Nat := []
  m2_len : Nat := 0
  m3 : List Nat := []
  m3_len : Nat := 0
  xof_len : Nat := 0
  xof_bit_len : Nat := 0
  exp_len : Nat := 0
  exp_method : Nat := 0
  msgCap : Nat := 0
  mdCap : Nat := 0
  m1Cap : Nat := 0
  m2Cap : Nat := 0
  m3Cap : Nat := 0
  deriving DecidableEq, Repr

/-- The abstract hash engine (the `cap->crypto_handler` callback): given the
test-case context it either produces the digest bytes it writes into `md`
(also setting `md_len`), or fails. -/
def HashEngine : Type := ACVP_HASH_TC → Option (List Nat)

/-- One result record produced by `acvp_hash_output_mct_tc` /
`acvp_hash_output_tc`: the digest (kept as bytes; the hex encoding is the
external codec) and, for SHAKE, the reported `outLen` in bits. -/
structure MctRecord where
  md : List Nat
  outLen : Option Nat
  deriving DecidableEq, Repr

/-- `acvp_hash_output_mct_tc`: hex-encode the digest and append it (with
`outLen` for SHAKE) to the response array.  The external `acvp_bin_to_hexstr`
fails when the digest does not fit the hex buffer. -/
def acvp_hash_output_mct_tc (stc : ACVP_HASH_TC) : Except ACVP_RESULT MctRecord :=
  let strMax := if stc.cipher = ACVP_HASH_SHAKE_128 ∨ stc.cipher = ACVP_HASH_SHAKE_256 then
    ACVP_HASH_XOF_MD_STR_MAX else ACVP_HASH_MD_STR_MAX
  if 2 * stc.md_len ≤ strMax then
    .ok { md := bufRead stc.md stc.md_len,
          outLen := if stc.cipher = ACVP_HASH_SHAKE_128 ∨ stc.cipher = ACVP_HASH_SHAKE_256 then
            some (stc.md_len * 8) else none }
  else .error ACVP_HEX_FAIL

/-- `acvp_hash_output_tc` (single-shot AFT/VOT/LDT response record). -/
def acvp_hash_output_tc (stc : ACVP_HASH_TC) : Except ACVP_RESULT MctRecord :=
  let strMax := if stc.test_type = some VOT then ACVP_HASH_XOF_MD_STR_MAX else ACVP_HASH_MD_STR_MAX
  if 2 * stc.md_len ≤ strMax then
    .ok { md := bufRead stc.md stc.md_len,
          outLen := if stc.cipher = ACVP_HASH_SHAKE_128 ∨ stc.cipher = ACVP_HASH_SHAKE_256 then
            some (stc.md_len * 8) else none }
  else .error ACVP_HEX_FAIL

/-! ## Classic (SHA-1/SHA-2) MCT: `acvp_hash_mct_tc` -/

/-- The `mct_buffer_size` local of `acvp_hash_mct_tc`: `ACVP_HASH_MD_BYTE_MAX`,
enlarged to `ACVP_HASH_MSG_BYTE_MAX` only for the alternate MCT version. -/
def classicMctBufferSize (v : Option ACVP_HASH_MCT_VERSION) : Nat :=
  if v = some ALTERNATE then ACVP_HASH_MSG_BYTE_MAX else ACVP_HASH_MD_BYTE_MAX

/-- The seeding copies at the top of the outer loop of `acvp_hash_mct_tc`
(`A = B = C = SEED`): three unchecked `memcpy_s` calls with destination
capacity `mct_buffer_size`, each followed by a length assignment. -/
def classicSeedSlots (cap : Nat) (seed : List Nat) (seed_len : Nat)
    (stc : ACVP_HASH_TC) : ACVP_HASH_TC :=
  { stc with
    m1 := (memcpy_s cap seed seed_len).1, m1_len := seed_len,
    m2 := (memcpy_s cap seed seed_len).1, m2_len := seed_len,
    m3 := (memcpy_s cap seed seed_len).1, m3_len := seed_len }

/-- One inner round of `acvp_hash_mct_tc`: `MD = SHA(MSG)` via the crypto
handler (failure aborts with `ACVP_CRYPTO_MODULE_FAIL`), then the checked
rotation `A = B, B = C, C = MD`; a nonzero accumulated `memcpy_s` result
aborts with `ACVP_INTERNAL_ERR`. -/
def classicRound (H : HashEngine) (cap : Nat) (stc : ACVP_HASH_TC) :
    Except ACVP_RESULT ACVP_HASH_TC :=
  match H stc with
  | none => .error ACVP_CRYPTO_MODULE_FAIL
  | some d =>
    let stc1 : ACVP_HASH_TC := { stc with md := d, md_len := d.length }
    let c1 := memcpy_s cap stc1.m2 stc1.m2_len
    let c2 := memcpy_s cap stc1.m3 stc1.m3_len
    let c3 := memcpy_s cap stc1.md stc1.md_len
    let stc2 : ACVP_HASH_TC :=
      { stc1 with
        m1 := c1.1, m1_len := stc1.m2_len,
        m2 := c2.1, m2_len := stc1.m3_len,
        m3 := c3.1, m3_len := stc1.md_len }
    if c1.2 + c2.2 + c3.2 = 0 then .ok stc2 else .error ACVP_INTERNAL_ERR

/-- The inner loop of `acvp_hash_mct_tc` (`n` remaining rounds). -/
def classicInnerLoop (H : HashEngine) (cap : Nat) :
    Nat → ACVP_HASH_TC → Except ACVP_RESULT ACVP_HASH_TC
  | 0, stc => .ok stc
  | n + 1, stc => classicRound H cap stc >>= classicInnerLoop H cap n

/-- The outer loop of `acvp_hash_mct_tc` (`n` remaining iterations): seed the
three slots, run the inner rounds, output the digest record, then continue
with `SEED = MD`. -/
def classicOuterLoop (H : HashEngine) (cap : Nat) :
    Nat → List Nat → Nat → ACVP_HASH_TC → Except ACVP_RESULT (List MctRecord)
  | 0, _, _, _ => .ok []
  | n + 1, seed, seed_len, stc => do
    let stc1 := classicSeedSlots cap seed seed_len stc
    let stc2 ← classicInnerLoop H cap ACVP_HASH_MCT_INNER stc1
    let rec0 ← acvp_hash_output_mct_tc stc2
    let recs ← classicOuterLoop H cap n stc2.md stc2.md_len stc2
    .ok (rec0 :: recs)

/-- `acvp_hash_mct_tc`: the classic (SHA-1/SHA-2) triple-buffer Monte Carlo
test.  The initial seed is the case's input message. -/
def acvp_hash_mct_tc (H : HashEngine) (stc : ACVP_HASH_TC) :
    Except ACVP_RESULT (List MctRecord) :=
  classicOuterLoop H (classicMctBufferSize stc.mct_version)
    ACVP_HASH_MCT_OUTER stc.msg stc.msg_len stc

/-! Specification-side description of the classic MCT chain (from the claim's
words): slots rotate `slot1 ← slot2, slot2 ← slot3, slot3 ← new digest`; an
outer iteration seeds all three slots with the seed, runs
`ACVP_HASH_MCT_INNER` rounds and records the final `slot3` digest, which
becomes the next seed. -/

/-- One rotation of the claim's three-slot state under digest function `f`. -/
def classicRotSpec (f : List Nat → List Nat → List Nat → List Nat)
    (t : List Nat × List Nat × List Nat) : List Nat × List Nat × List Nat :=
  (t.2.1, t.2.2, f t.1 t.2.1 t.2.2)

/-- The digest an outer iteration records, starting from seed `s`:
the third slot after `ACVP_HASH_MCT_INNER` rotations of `(s, s, s)`. -/
def classicIterMd (f : List Nat → List Nat → List Nat → List Nat)
    (s : List Nat) : List Nat :=
  ((classicRotSpec f)^[ACVP_HASH_MCT_INNER] (s, s, s)).2.2

/-- The seed before outer iteration `k` (seed 0 is the input message; each
iteration's recorded digest becomes the next seed). -/
def classicSeedSpec (f : List Nat → List Nat → List Nat → List Nat)
    (s : List Nat) : Nat → List Nat
  | 0 => s
  | k + 1 => classicIterMd f (classicSeedSpec f s k)

/-- The claim's record sequence: `n` records, record `k` being the digest of
outer iteration `k`. -/
def classicRecordsSpec (f : List Nat → List Nat → List Nat → List Nat)
    (s : List Nat) (n : Nat) : List MctRecord :=
  (List.range n).map (fun k => { md := classicSeedSpec f s (k + 1), outLen := none })

/-! ## SHA-3 MCT: `acvp_hash_sha3_mct` -/

/-- The message replacement at the top of a nonzero pass of
`acvp_hash_sha3_mct`: zeroize the message buffer, then copy the digest in —
truncated to the initial seed length in alternate mode (where `msg_len`
becomes the initial seed length), full otherwise. -/
def sha3Replace (initial_seed_len : Nat) (stc : ACVP_HASH_TC) : ACVP_HASH_TC :=
  if stc.mct_version = some ALTERNATE then
    { stc with
      msg := (memcpy_s ACVP_HASH_MSG_BYTE_MAX stc.md
        (if stc.md_len > initial_seed_len then initial_seed_len else stc.md_len)).1,
      msg_len := initial_seed_len }
  else
    { stc with
      msg := (memcpy_s ACVP_HASH_MSG_BYTE_MAX stc.md stc.md_len).1,
      msg_len := stc.md_len }

/-- `memzero_s(stc->md, ...)`: the digest buffer content is zeroed
(`md_len` is untouched). -/
def clearMd (stc : ACVP_HASH_TC) : ACVP_HASH_TC :=
  { stc with md := List.replicate stc.md_len 0 }

/-- The inner loop of `acvp_hash_sha3_mct`, running the body at index `i` with
`fuel` loop entries remaining (the loop is entered with `i = 0` and fuel
`ACVP_HASH_MCT_INNER + 1`, covering indices `0..ACVP_HASH_MCT_INNER`).
A nonzero pass first replaces the message with the previous digest; pass
`ACVP_HASH_MCT_INNER` then breaks before computing another digest. -/
def sha3InnerLoop (H : HashEngine) (initial_seed_len : Nat) :
    Nat → Nat → ACVP_HASH_TC → Except ACVP_RESULT ACVP_HASH_TC
  | 0, _, stc => .ok stc
  | fuel + 1, i, stc =>
    let stc1 := if i ≠ 0 then sha3Replace initial_seed_len stc else stc
    if i ≠ 0 ∧ i = ACVP_HASH_MCT_INNER then
      .ok stc1
    else
      match H (clearMd stc1) with
      | none => .error ACVP_CRYPTO_MODULE_FAIL
      | some d =>
        sha3InnerLoop H initial_seed_len fuel (i + 1)
          { clearMd stc1 with md := d, md_len := d.length }

/-- The outer loop of `acvp_hash_sha3_mct` (`n` remaining iterations). -/
def sha3OuterLoop (H : HashEngine) (initial_seed_len : Nat) :
    Nat → ACVP_HASH_TC → Except ACVP_RESULT (List MctRecord)
  | 0, _ => .ok []
  | n + 1, stc => do
    let stc1 ← sha3InnerLoop H initial_seed_len (ACVP_HASH_MCT_INNER + 1) 0 stc
    let rec0 ← acvp_hash_output_mct_tc stc1
    let recs ← sha3OuterLoop H initial_seed_len n stc1
    .ok (rec0 :: recs)

/-- `acvp_hash_sha3_mct`: the SHA-3 single-chain Monte Carlo test.
`initial_seed_len` is the message length at entry. -/
def acvp_hash_sha3_mct (H : HashEngine) (stc : ACVP_HASH_TC) :
    Except ACVP_RESULT (List MctRecord) :=
  sha3OuterLoop H stc.msg_len ACVP_HASH_MCT_OUTER stc

/-! Specification-side description of the SHA-3 MCT chain (from the claim's
words): pass 0 hashes the current message, passes `1..999` hash the previous
digest (truncated or zero-padded to the original seed length in alternate
mode); the recorded digest is the one computed on pass 999, and the message it
is replaced by becomes the next iteration's seed. -/

/-- Zero-pad or truncate `l` to exactly `n` bytes. -/
def zeroPadTo (n : Nat) (l : List Nat) : List Nat :=
  l.take n ++ List.replicate (n - l.length) 0

/-- The claim's replacement rule: the digest itself, or (alternate mode) the
digest truncated / zero-padded to the original seed length. -/
def sha3ReplaceSpec (v : Option ACVP_HASH_MCT_VERSION) (isl : Nat) (d : List Nat) :
    List Nat :=
  if v = some ALTERNATE then zeroPadTo isl d else d

/-- The digest recorded by one outer iteration rooted at message `m`:
the `ACVP_HASH_MCT_INNER`-fold chained digest (pass 0 hashes `m` itself; each
later pass hashes the replaced previous digest). -/
def sha3IterMd (f : List Nat → List Nat) (v : Option ACVP_HASH_MCT_VERSION)
    (isl : Nat) (m : List Nat) : List Nat :=
  (fun d => f (sha3ReplaceSpec v isl d))^[ACVP_HASH_MCT_INNER - 1] (f m)

/-- The claim's SHA-3 record sequence: `n` records; each iteration records
`sha3IterMd` of its message, whose replacement is the next message. -/
def sha3RecordsSpec (f : List Nat → List Nat) (v : Option ACVP_HASH_MCT_VERSION)
    (isl : Nat) : Nat → List Nat → List MctRecord
  | 0, _ => []
  | n + 1, m =>
    let d := sha3IterMd f v isl m
    { md := d, outLen := none } :: sha3RecordsSpec f v isl n (sha3ReplaceSpec v isl d)

/-! ## SHAKE MCT: `acvp_hash_shake_mct` -/

/-- `leftmost_bytes` in `acvp_hash_shake_mct`. -/
def shakeLeftmostBytes : Nat := 16

/-- The two trailing digest bytes combined through the `uint8_t rob[2]` /
`uint16_t` type pun of `acvp_hash_shake_mct`, under either preprocessor branch:
on a little-endian host `rob[0]` (the low byte) receives `md[md_len-1]`,
otherwise `rob[1]` (the low byte) does. -/
def shakeRightmostOutBits (littleEndian : Bool) (md : List Nat) (md_len : Nat) : Nat :=
  if littleEndian then
    md.getD (md_len - 1) 0 + 256 * md.getD (md_len - 2) 0
  else
    256 * md.getD (md_len - 2) 0 + md.getD (md_len - 1) 0

/-- The initial requested SHAKE output length:
`xof_len = (maxoutlen/8)*8` bits, stored in bytes as `(xof_len + 7) / 8`. -/
def shakeInitXofLen (max_xof_bits : Nat) : Nat :=
  ((max_xof_bits / 8) * 8 + 7) / 8

/-- The next requested SHAKE output length, derived after a computed pass from
the digest's two trailing bytes:
`min_xof_bytes + (rightmost_out_bits % range)`. -/
def shakeNextXofLen (littleEndian : Bool) (min_xof_bytes range : Nat)
    (md : List Nat) (md_len : Nat) : Nat :=
  min_xof_bytes + shakeRightmostOutBits littleEndian md md_len % range

/-- The SHAKE message rebuild at the top of a nonzero pass: zeroize the
message buffer and copy in the leftmost 16 digest bytes (the whole digest if
shorter).  Only the buffer content changes here; `msg_len` is assigned
separately (and not at all on the breaking pass). -/
def shakeRebuild (stc : ACVP_HASH_TC) : ACVP_HASH_TC :=
  if stc.md_len ≤ shakeLeftmostBytes then
    { stc with msg := (memcpy_s ACVP_SHAKE_MSG_BYTE_MAX stc.md stc.md_len).1 }
  else
    { stc with msg := (memcpy_s ACVP_SHAKE_MSG_BYTE_MAX stc.md shakeLeftmostBytes).1 }

/-- The inner loop of `acvp_hash_shake_mct` at index `i` with `fuel` entries
remaining.  A nonzero pass first rebuilds the message from the previous
digest; pass `ACVP_HASH_MCT_INNER` breaks immediately after the rebuild.
Every computed pass sets `msg_len` to 16, clears the digest buffer, runs the
engine at the current `xof_len` and then derives the next `xof_len` from the
digest's two trailing bytes. -/
def shakeInnerLoop (H : HashEngine) (littleEndian : Bool)
    (min_xof_bytes range : Nat) :
    Nat → Nat → ACVP_HASH_TC → Except ACVP_RESULT ACVP_HASH_TC
  | 0, _, stc => .ok stc
  | fuel + 1, i, stc =>
    let stc1 := if i ≠ 0 then shakeRebuild stc else stc
    if i ≠ 0 ∧ i = ACVP_HASH_MCT_INNER then
      .ok stc1
    else
      let stc2 := { stc1 with msg_len := shakeLeftmostBytes }
      match H (clearMd stc2) with
      | none => .error ACVP_CRYPTO_MODULE_FAIL
      | some d =>
        let stc3 := { clearMd stc2 with md := d, md_len := d.length }
        shakeInnerLoop H littleEndian min_xof_bytes range fuel (i + 1)
          { stc3 with
            xof_len := shakeNextXofLen littleEndian min_xof_bytes range stc3.md stc3.md_len }

/-- The outer loop of `acvp_hash_shake_mct` (`n` remaining iterations). -/
def shakeOuterLoop (H : HashEngine) (littleEndian : Bool)
    (min_xof_bytes range : Nat) :
    Nat → ACVP_HASH_TC → Except ACVP_RESULT (List MctRecord)
  | 0, _ => .ok []
  | n + 1, stc => do
    let stc1 ← shakeInnerLoop H littleEndian min_xof_bytes range
      (ACVP_HASH_MCT_INNER + 1) 0 stc
    let rec0 ← acvp_hash_output_mct_tc stc1
    let recs ← shakeOuterLoop H littleEndian min_xof_bytes range n stc1
    .ok (rec0 :: recs)

/-- `acvp_hash_shake_mct`: the SHAKE variable-output Monte Carlo test.
`littleEndian` selects the host's preprocessor branch for the trailing-bytes
extraction. -/
def acvp_hash_shake_mct (H : HashEngine) (littleEndian : Bool)
    (stc : ACVP_HASH_TC) (min_xof_bits max_xof_bits : Nat) :
    Except ACVP_RESULT (List MctRecord) :=
  let min_xof_bytes := min_xof_bits / 8
  let max_xof_bytes := max_xof_bits / 8
  let range := max_xof_bytes - min_xof_bytes + 1
  shakeOuterLoop H littleEndian min_xof_bytes range ACVP_HASH_MCT_OUTER
    { stc with xof_len := shakeInitXofLen max_xof_bits }

/-! Specification-side description of the SHAKE MCT chain.  The digest
function `f` takes the 16-byte message actually fed to the engine and the
requested output length in bytes. -/

/-- The claim's trailing-bytes combination: the numerically last byte is the
low byte, the second-to-last the high byte. -/
def shakeCombineSpec (d : List Nat) : Nat :=
  d.getD (d.length - 1) 0 + 256 * d.getD (d.length - 2) 0

/-- One computed SHAKE pass on (message content, requested byte length):
the digest, then the next state — message rebuilt from the leftmost 16 digest
bytes, next length derived from the trailing bytes. -/
def shakePassSpec (f : List Nat → Nat → List Nat) (min_xof_bytes range : Nat)
    (cx : List Nat × Nat) : List Nat × (List Nat × Nat) :=
  let d := f (bufRead cx.1 shakeLeftmostBytes) cx.2
  (d, (d.take shakeLeftmostBytes, min_xof_bytes + shakeCombineSpec d % range))

/-- The state transition of one computed SHAKE pass. -/
def shakeStepSpec (f : List Nat → Nat → List Nat) (min_xof_bytes range : Nat)
    (cx : List Nat × Nat) : List Nat × Nat :=
  (shakePassSpec f min_xof_bytes range cx).2

/-- The SHAKE record sequence: each outer iteration performs
`ACVP_HASH_MCT_INNER` computed passes and records the digest of the last one
together with its achieved output length in bits; the state after that pass
(rebuilt message, derived length) carries into the next iteration. -/
def shakeRecordsSpec (f : List Nat → Nat → List Nat) (min_xof_bytes range : Nat) :
    Nat → List Nat × Nat → List MctRecord
  | 0, _ => []
  | n + 1, cx =>
    let p := shakePassSpec f min_xof_bytes range
      ((shakeStepSpec f min_xof_bytes range)^[ACVP_HASH_MCT_INNER - 1] cx)
    { md := p.1, outLen := some (p.1.length * 8) } ::
      shakeRecordsSpec f min_xof_bytes range n p.2

/-! ## Proof infrastructure for the classic MCT -/

theorem bufRead_self (l : List Nat) : bufRead l l.length = l := by
  simp [bufRead]

theorem memcpy_s_le (dmax : Nat) (src : List Nat) (count : Nat)
    (h : count ≤ dmax) : memcpy_s dmax src count = (bufRead src count, 0) := by
  simp [memcpy_s, h]

/-- The classic MCT state reached by the loop: the three chaining slots hold
the triple `t`, the digest buffer holds `md`, lengths agree with contents. -/
def classicStateOf (stc : ACVP_HASH_TC) (t : List Nat × List Nat × List Nat)
    (md : List Nat) : ACVP_HASH_TC :=
  { stc with
    m1 := t.1, m1_len := t.1.length,
    m2 := t.2.1, m2_len := t.2.1.length,
    m3 := t.2.2, m3_len := t.2.2.length,
    md := md, md_len := md.length }

theorem classicRound_ok (H : HashEngine)
    (f : List Nat → List Nat → List Nat → List Nat) (cap : Nat)
    (hH : ∀ s, H s = some (f s.m1 s.m2 s.m3))
    (hf : ∀ a b c, (f a b c).length ≤ cap)
    (t : List Nat × List Nat × List Nat) (md : List Nat) (stc : ACVP_HASH_TC)
    (hb : t.2.1.length ≤ cap) (hc : t.2.2.length ≤ cap) :
    classicRound H cap (classicStateOf stc t md) =
      .ok (classicStateOf stc (classicRotSpec f t) (f t.1 t.2.1 t.2.2)) := by
  have hHs : H (classicStateOf stc t md) = some (f t.1 t.2.1 t.2.2) := by
    rw [hH]; rfl
  simp only [classicRound, hHs]
  simp only [classicStateOf, classicRotSpec]
  simp [memcpy_s, bufRead, hb, hc, hf t.1 t.2.1 t.2.2]


theorem exceptBind_ok {α β : Type} (a : α) (g : α → Except ACVP_RESULT β) :
    (Except.ok a >>= g : Except ACVP_RESULT β) = g a := rfl

theorem mct_inner_ne_zero : ACVP_HASH_MCT_INNER ≠ 0 := by
  norm_num [ACVP_HASH_MCT_INNER]

theorem classicInnerLoop_ok (H : HashEngine)
    (f : List Nat → List Nat → List Nat → List Nat) (cap : Nat)
    (hH : ∀ s, H s = some (f s.m1 s.m2 s.m3))
    (hf : ∀ a b c, (f a b c).length ≤ cap) :
    ∀ (n : Nat) (t : List Nat × List Nat × List Nat) (md : List Nat)
      (stc : ACVP_HASH_TC), t.2.1.length ≤ cap → t.2.2.length ≤ cap →
      classicInnerLoop H cap n (classicStateOf stc t md) =
        .ok (classicStateOf stc ((classicRotSpec f)^[n] t)
          (if n = 0 then md else ((classicRotSpec f)^[n] t).2.2)) := by
  intro n
  induction n with
  | zero =>
    intro t md stc hb hc
    simp [classicInnerLoop]
  | succ n ih =>
    intro t md stc hb hc
    have hround := classicRound_ok H f cap hH hf t md stc hb hc
    have hb' : (classicRotSpec f t).2.1.length ≤ cap := hc
    have hc' : (classicRotSpec f t).2.2.length ≤ cap := hf _ _ _
    have hrec := ih (classicRotSpec f t) (f t.1 t.2.1 t.2.2) stc hb' hc'
    have hiter : (classicRotSpec f)^[n] (classicRotSpec f t) =
        (classicRotSpec f)^[n + 1] t := (Function.iterate_succ_apply _ _ _).symm
    simp only [classicInnerLoop, hround, exceptBind_ok, hrec, hiter,
      if_neg (Nat.succ_ne_zero n)]
    cases n with
    | zero =>
      rw [if_pos rfl, Function.iterate_one]
      rfl
    | succ m =>
      rw [if_neg (Nat.succ_ne_zero m)]

theorem classicRotSpec_iterate_third (f : List Nat → List Nat → List Nat → List Nat)
    (n : Nat) (t : List Nat × List Nat × List Nat) :
    ((classicRotSpec f)^[n + 1] t).2.2 =
      f ((classicRotSpec f)^[n] t).1 ((classicRotSpec f)^[n] t).2.1
        ((classicRotSpec f)^[n] t).2.2 := by
  rw [Function.iterate_succ_apply']
  rfl

theorem classicIterMd_is_f (f : List Nat → List Nat → List Nat → List Nat)
    (s : List Nat) :
    ∃ a b c, classicIterMd f s = f a b c := by
  have hs : ACVP_HASH_MCT_INNER = 999 + 1 := by norm_num [ACVP_HASH_MCT_INNER]
  have h : classicIterMd f s =
      f ((classicRotSpec f)^[999] (s, s, s)).1
        ((classicRotSpec f)^[999] (s, s, s)).2.1
        ((classicRotSpec f)^[999] (s, s, s)).2.2 := by
    rw [classicIterMd, hs, classicRotSpec_iterate_third]
  exact ⟨_, _, _, h⟩

theorem classicSeedSpec_shift (f : List Nat → List Nat → List Nat → List Nat)
    (s : List Nat) : ∀ k, classicSeedSpec f s (k + 1) =
      classicSeedSpec f (classicIterMd f s) k := by
  intro k
  induction k with
  | zero => rfl
  | succ k ih => rw [classicSeedSpec, ih]; rfl

theorem classicRecordsSpec_succ (f : List Nat → List Nat → List Nat → List Nat)
    (s : List Nat) (n : Nat) :
    classicRecordsSpec f s (n + 1) =
      { md := classicIterMd f s, outLen := none } ::
        classicRecordsSpec f (classicIterMd f s) n := by
  simp only [classicRecordsSpec, List.range_succ_eq_map, List.map_cons, List.map_map]
  congr 1
  apply List.map_congr_left
  intro k _
  simp [Function.comp, classicSeedSpec_shift]

theorem classicOuterLoop_ok (H : HashEngine)
    (f : List Nat → List Nat → List Nat → List Nat) (cap : Nat)
    (hH : ∀ s, H s = some (f s.m1 s.m2 s.m3))
    (hf : ∀ a b c, (f a b c).length ≤ cap)
    (hstr : ∀ a b c, 2 * (f a b c).length ≤ ACVP_HASH_MD_STR_MAX) :
    ∀ (n : Nat) (seed : List Nat) (stc : ACVP_HASH_TC),
      seed.length ≤ cap → stc.md_len = stc.md.length →
      ¬(stc.cipher = ACVP_HASH_SHAKE_128 ∨ stc.cipher = ACVP_HASH_SHAKE_256) →
      classicOuterLoop H cap n seed seed.length stc =
        .ok (classicRecordsSpec f seed n) := by
  intro n
  induction n with
  | zero =>
    intro seed stc hseed hmd hcip
    simp [classicOuterLoop, classicRecordsSpec]
  | succ n ih =>
    intro seed stc hseed hmd hcip
    have hseedst : classicSeedSlots cap seed seed.length stc =
        classicStateOf stc (seed, seed, seed) stc.md := by
      simp [classicSeedSlots, classicStateOf, memcpy_s_le _ _ _ hseed, bufRead_self, hmd]
    have hinner := classicInnerLoop_ok H f cap hH hf ACVP_HASH_MCT_INNER
      (seed, seed, seed) stc.md stc hseed hseed
    rw [if_neg mct_inner_ne_zero] at hinner
    obtain ⟨a, b, c, hiter⟩ := classicIterMd_is_f f seed
    have hmdIter : ((classicRotSpec f)^[ACVP_HASH_MCT_INNER] (seed, seed, seed)).2.2 =
        classicIterMd f seed := rfl
    rw [hmdIter] at hinner
    have hout : acvp_hash_output_mct_tc
        (classicStateOf stc ((classicRotSpec f)^[ACVP_HASH_MCT_INNER] (seed, seed, seed))
          (classicIterMd f seed)) =
        .ok { md := classicIterMd f seed, outLen := none } := by
      have hlen : 2 * (classicIterMd f seed).length ≤ ACVP_HASH_MD_STR_MAX := by
        rw [hiter]; exact hstr a b c
      have hcip2 : ¬((classicStateOf stc
          ((classicRotSpec f)^[ACVP_HASH_MCT_INNER] (seed, seed, seed))
          (classicIterMd f seed)).cipher = ACVP_HASH_SHAKE_128 ∨
          (classicStateOf stc
          ((classicRotSpec f)^[ACVP_HASH_MCT_INNER] (seed, seed, seed))
          (classicIterMd f seed)).cipher = ACVP_HASH_SHAKE_256) := hcip
      simp only [acvp_hash_output_mct_tc, if_neg hcip2]
      have hmdf : (classicStateOf stc
          ((classicRotSpec f)^[ACVP_HASH_MCT_INNER] (seed, seed, seed))
          (classicIterMd f seed)).md = classicIterMd f seed := rfl
      have hmdl : (classicStateOf stc
          ((classicRotSpec f)^[ACVP_HASH_MCT_INNER] (seed, seed, seed))
          (classicIterMd f seed)).md_len = (classicIterMd f seed).length := rfl
      rw [hmdf, hmdl, if_pos hlen, bufRead_self]
    have hrec := ih (classicIterMd f seed)
      (classicStateOf stc ((classicRotSpec f)^[ACVP_HASH_MCT_INNER] (seed, seed, seed))
        (classicIterMd f seed))
      (by rw [hiter]; exact hf a b c) rfl hcip
    simp only [classicOuterLoop, hseedst, hinner, exceptBind_ok, hout]
    have hmdf : (classicStateOf stc
        ((classicRotSpec f)^[ACVP_HASH_MCT_INNER] (seed, seed, seed))
        (classicIterMd f seed)).md = classicIterMd f seed := rfl
    have hmdl : (classicStateOf stc
        ((classicRotSpec f)^[ACVP_HASH_MCT_INNER] (seed, seed, seed))
        (classicIterMd f seed)).md_len = (classicIterMd f seed).length := rfl
    rw [hmdf, hmdl, hrec]
    rw [classicRecordsSpec_succ]
    rfl

theorem classicRound_slot3 (H : HashEngine) (cap : Nat) (s s' : ACVP_HASH_TC)
    (h : classicRound H cap s = .ok s') : s'.m3 = s'.md ∧ s'.m3_len = s'.md_len := by
  unfold classicRound at h
  cases hH : H s with
  | none => rw [hH] at h; exact absurd h (by simp)
  | some d =>
    rw [hH] at h
    simp only at h
    by_cases hd : d.length ≤ cap
    · by_cases h2 : (memcpy_s cap s.m2 s.m2_len).2 + (memcpy_s cap s.m3 s.m3_len).2 +
          (memcpy_s cap d d.length).2 = 0
      · rw [if_pos h2] at h
        cases h
        constructor
        · show (memcpy_s cap d d.length).1 = d
          rw [memcpy_s_le _ _ _ hd, bufRead_self]
        · rfl
      · rw [if_neg h2] at h
        exact absurd h (by simp)
    · have h3 : (memcpy_s cap d d.length).2 = 1 := by
        simp [memcpy_s, hd]
      have h2 : ¬((memcpy_s cap s.m2 s.m2_len).2 + (memcpy_s cap s.m3 s.m3_len).2 +
          (memcpy_s cap d d.length).2 = 0) := by
        omega
      rw [if_neg h2] at h
      exact absurd h (by simp)

theorem classicInnerLoop_slot3 (H : HashEngine) (cap : Nat) :
    ∀ (n : Nat) (s s' : ACVP_HASH_TC), 1 ≤ n →
      classicInnerLoop H cap n s = .ok s' → s'.m3 = s'.md ∧ s'.m3_len = s'.md_len := by
  intro n
  induction n with
  | zero => intro s s' h1; omega
  | succ n ih =>
    intro s s' _ h
    rw [classicInnerLoop] at h
    cases hr : classicRound H cap s with
    | error e => rw [hr] at h; exact absurd h (by simp [Bind.bind, Except.bind])
    | ok s1 =>
      rw [hr, exceptBind_ok] at h
      cases n with
      | zero =>
        have : s1 = s' := by simpa [classicInnerLoop] using h
        subst this
        exact classicRound_slot3 H cap s s1 hr
      | succ m => exact ih s1 s' (by omega) h

theorem classicRecordsSpec_getD (f : List Nat → List Nat → List Nat → List Nat)
    (s : List Nat) (n k : Nat) (hk : k < n) :
    (classicRecordsSpec f s n).getD k { md := [], outLen := none } =
      { md := classicIterMd f (classicSeedSpec f s k), outLen := none } := by
  have hlen : k < (classicRecordsSpec f s n).length := by
    simp [classicRecordsSpec, hk]
  rw [List.getD_eq_getElem _ _ hlen]
  simp [classicRecordsSpec]
  rfl

/-- C1: the classic (SHA-1/SHA-2) MCT performs exactly
`ACVP_HASH_MCT_OUTER = 100` outer iterations; each outer iteration seeds all
three chaining slots with the current seed (initially the case's input
message, then the prior iteration's final digest), runs exactly
`ACVP_HASH_MCT_INNER = 1000` inner rounds rotating
`slot1 ← slot2, slot2 ← slot3, slot3 ← new digest` after each digest, and
after the 1000 rounds the final value of slot 3 equals the recorded digest
(which is the next seed).  `f` is the digest the engine computes from the
three chaining slots. -/
theorem claim_C1_classic_mct (H : HashEngine)
    (f : List Nat → List Nat → List Nat → List Nat) (stc : ACVP_HASH_TC)
    (hH : ∀ s, H s = some (f s.m1 s.m2 s.m3))
    (hf : ∀ a b c, (f a b c).length ≤ classicMctBufferSize stc.mct_version)
    (hstr : ∀ a b c, 2 * (f a b c).length ≤ ACVP_HASH_MD_STR_MAX)
    (hmsg : stc.msg_len = stc.msg.length)
    (hmsgcap : stc.msg.length ≤ classicMctBufferSize stc.mct_version)
    (hmd : stc.md_len = stc.md.length)
    (hcip : ¬(stc.cipher = ACVP_HASH_SHAKE_128 ∨ stc.cipher = ACVP_HASH_SHAKE_256)) :
    acvp_hash_mct_tc H stc =
      .ok (classicRecordsSpec f stc.msg ACVP_HASH_MCT_OUTER)
    ∧ (classicRecordsSpec f stc.msg ACVP_HASH_MCT_OUTER).length = 100
    ∧ (∀ k, k < ACVP_HASH_MCT_OUTER →
        (classicRecordsSpec f stc.msg ACVP_HASH_MCT_OUTER).getD k { md := [], outLen := none } =
          { md := classicIterMd f (classicSeedSpec f stc.msg k), outLen := none })
    ∧ (∀ n s s', 1 ≤ n →
        classicInnerLoop H (classicMctBufferSize stc.mct_version) n s = .ok s' →
          s'.m3 = s'.md ∧ s'.m3_len = s'.md_len) := by
  refine ⟨?_, ?_, ?_, ?_⟩
  · rw [acvp_hash_mct_tc, hmsg]
    exact classicOuterLoop_ok H f (classicMctBufferSize stc.mct_version) hH hf hstr
      ACVP_HASH_MCT_OUTER stc.msg stc hmsgcap hmd hcip
  · simp [classicRecordsSpec, ACVP_HASH_MCT_OUTER]
  · intro k hk
    exact classicRecordsSpec_getD f stc.msg ACVP_HASH_MCT_OUTER k hk
  · exact classicInnerLoop_slot3 H (classicMctBufferSize stc.mct_version)

/-- Concrete digest function for the C1 witness. -/
def fC1w : List Nat → List Nat → List Nat → List Nat := fun _ _ _ => [7]

/-- Concrete engine for the C1 witness. -/
def HC1w : HashEngine := fun _ => some [7]

/-- Concrete classic-MCT context for the C1 witness. -/
def stcC1w : ACVP_HASH_TC :=
  { cipher := ACVP_HASH_SHA256, test_type := some MCT, mct_version := some STANDARD,
    msg := [1], msg_len := 1 }

theorem claim_C1_witness :
    acvp_hash_mct_tc HC1w stcC1w =
      .ok (classicRecordsSpec fC1w [1] ACVP_HASH_MCT_OUTER)
    ∧ (classicRecordsSpec fC1w [1] ACVP_HASH_MCT_OUTER).length = 100
    ∧ (∀ k, k < ACVP_HASH_MCT_OUTER →
        (classicRecordsSpec fC1w [1] ACVP_HASH_MCT_OUTER).getD k { md := [], outLen := none } =
          { md := classicIterMd fC1w (classicSeedSpec fC1w [1] k), outLen := none })
    ∧ (∀ n s s', 1 ≤ n →
        classicInnerLoop HC1w (classicMctBufferSize stcC1w.mct_version) n s = .ok s' →
          s'.m3 = s'.md ∧ s'.m3_len = s'.md_len) :=
  claim_C1_classic_mct HC1w fC1w stcC1w (fun _ => rfl)
    (fun _ _ _ => by simp [fC1w, stcC1w, classicMctBufferSize, ACVP_HASH_MD_BYTE_MAX,
      ACVP_HASH_MSG_BYTE_MAX])
    (fun _ _ _ => by norm_num [fC1w, ACVP_HASH_MD_STR_MAX, ACVP_HASH_MD_BYTE_MAX])
    rfl
    (by simp [stcC1w, classicMctBufferSize, ACVP_HASH_MD_BYTE_MAX, ACVP_HASH_MSG_BYTE_MAX])
    rfl
    (by norm_num [stcC1w, ACVP_HASH_SHAKE_128, ACVP_HASH_SHAKE_256, ACVP_HASH_SHA256])

/-! ## Parsing helpers, `acvp_hash_init_tc` and the vector-set handler -/

/-- `read_test_type` (`strcmp_s` with bounded length, i.e. prefix comparison
of the tag); the C function returns 0 (here `none`) for an unknown tag. -/
def read_test_type (s : String) : Option ACVP_HASH_TESTTYPE :=
  if s.take 3 = "MCT" then some MCT
  else if s.take 3 = "AFT" then some AFT
  else if s.take 3 = "VOT" then some VOT
  else if s.take 3 = "LDT" then some LDT
  else none

/-- `read_exp_method`: only "repeating" is recognised; anything else (including
a missing string, modelled from the spec's restriction of the technique) maps
to the invalid value 0. -/
def read_exp_method (s : Option String) : Nat :=
  match s with
  | some s => if s.take 9 = "repeating" then ACVP_HASH_EXPANSION_REPEATING else 0
  | none => 0

/-- `read_mct_version`.  Modelled from the spec: the literal tokens
`ACVP_STR_HASH_MCT_STANDARD` / `ACVP_STR_HASH_MCT_ALTERNATE` live in a header
that is not in the sources; the spec's variant names are
"standard" / "alternate". -/
def read_mct_version (s : String) : Option ACVP_HASH_MCT_VERSION :=
  if s.take 8 = "standard" then some STANDARD
  else if s.take 9 = "alternate" then some ALTERNATE
  else none

/-- `strnlen_s`. -/
def strnlen_s (s : String) (n : Nat) : Nat := min s.length n

/-- The external `acvp_hexstr_to_bin` codec: an abstract hex decoder `hexD`
plus the documented failure on capacity overflow. -/
def acvp_hexstr_to_bin (hexD : String → Option (List Nat)) (s : String)
    (cap : Nat) : Option (List Nat) :=
  (hexD s).bind fun l => if l.length ≤ cap then some l else none

/-- `acvp_hash_init_tc`: zero the context, choose buffer capacities from the
test type and algorithm (for MCT the `mct_buffer` capacity is
`ACVP_HASH_MSG_BYTE_MAX`), decode the message, then set the scalar fields
(converting bit lengths to bytes for every test type except LDT, whose values
are stored as passed). -/
def acvp_hash_init_tc (hexD : String → Option (List Nat)) (tc_id : Nat)
    (test_type : ACVP_HASH_TESTTYPE) (mct_version : Option ACVP_HASH_MCT_VERSION)
    (msg_len : Nat) (msg : String) (xof_len : Nat) (exp_len : Nat)
    (exp_method : Nat) (alg_id : Nat) : Except ACVP_RESULT ACVP_HASH_TC :=
  let mct_buffer := if test_type = MCT then ACVP_HASH_MSG_BYTE_MAX else ACVP_HASH_MD_BYTE_MAX
  let stc0 : ACVP_HASH_TC := {}
  let stc0 := if test_type = MCT then { stc0 with mct_version := mct_version } else stc0
  let msgCap := if ¬(alg_id = ACVP_HASH_SHAKE_128 ∨ alg_id = ACVP_HASH_SHAKE_256) then
    ACVP_HASH_MSG_BYTE_MAX else ACVP_SHAKE_MSG_BYTE_MAX
  let stc1 := { stc0 with msgCap := msgCap }
  let stc2 :=
    if test_type = AFT ∨ test_type = LDT then
      { stc1 with mdCap := ACVP_HASH_MD_BYTE_MAX }
    else if test_type = VOT then
      { stc1 with mdCap := ACVP_HASH_XOF_MD_BYTE_MAX }
    else if alg_id = ACVP_HASH_SHA3_224 ∨ alg_id = ACVP_HASH_SHA3_256 ∨
        alg_id = ACVP_HASH_SHA3_384 ∨ alg_id = ACVP_HASH_SHA3_512 then
      { stc1 with mdCap := ACVP_HASH_MD_BYTE_MAX }
    else if alg_id = ACVP_HASH_SHAKE_128 ∨ alg_id = ACVP_HASH_SHAKE_256 then
      { stc1 with mdCap := ACVP_HASH_XOF_MD_BYTE_MAX }
    else
      { stc1 with
        m1_len := msg_len, m2_len := msg_len, m3_len := msg_len,
        mdCap := mct_buffer, m1Cap := mct_buffer, m2Cap := mct_buffer, m3Cap := mct_buffer }
  match acvp_hexstr_to_bin hexD msg msgCap with
  | none => .error ACVP_HEX_FAIL
  | some bytes =>
    let stc3 := { stc2 with
      msg := bytes, tc_id := tc_id, cipher := alg_id, test_type := some test_type }
    let stc4 := if alg_id = ACVP_HASH_SHAKE_128 ∨ alg_id = ACVP_HASH_SHAKE_256 then
      { stc3 with xof_len := (xof_len + 7) / 8, xof_bit_len := xof_len } else stc3
    if test_type = LDT then
      .ok { stc4 with msg_len := msg_len, exp_len := exp_len, exp_method := exp_method }
    else
      .ok { stc4 with msg_len := (msg_len + 7) / 8 }

/-- A parsed JSON `largeMsg` descriptor of an LDT test case (absent string
fields model `NULL` results of the JSON getters; absent numbers read as 0). -/
structure LargeMsgObj where
  content : Option String := none
  contentLength : Nat := 0
  fullLength : Nat := 0
  expansionTechnique : Option String := none
  deriving DecidableEq, Repr

/-- A parsed JSON test object. -/
structure TestObj where
  tcId : Nat := 0
  msg : Option String := none
  outLen : Nat := 0
  largeMsg : Option LargeMsgObj := none
  deriving DecidableEq, Repr

/-- A parsed JSON test group object. -/
structure GroupObj where
  tgId : Nat := 0
  testType : Option String := none
  minOutLen : Nat := 0
  maxOutLen : Nat := 0
  mctVersion : Option String := none
  tests : List TestObj := []
  deriving DecidableEq, Repr

/-- One test entry of the response document. -/
inductive TestRsp where
  | single (tcId : Nat) (rec : MctRecord)
  | mct (tcId : Nat) (recs : List MctRecord)
  deriving DecidableEq, Repr

/-- One group entry of the response document. -/
structure GroupRsp where
  tgId : Nat
  tests : List TestRsp
  deriving DecidableEq, Repr

/-- The LDT branch of the handler's test loop (lines 606-646): the algorithm
range check precedes any read of the `largeMsg` descriptor; then the content
must be present and fit, its hex length halved must equal
`contentLength / 8`, the full length is stored as `fullLength / 8` without
validation, and the expansion technique must read as "repeating".
Returns (content, content bytes, full-length bytes, expansion method). -/
def ldt_parse (alg_id : Nat) (t : TestObj) :
    Except ACVP_RESULT (String × Nat × Nat × Nat) :=
  if alg_id < ACVP_HASH_SHA1 ∨ alg_id > ACVP_HASH_SHA3_512 then .error ACVP_INVALID_ARG
  else
    match t.largeMsg with
    | none => .error ACVP_MISSING_ARG
    | some lm =>
      match lm.content with
      | none => .error ACVP_MISSING_ARG
      | some msg =>
        let tmp_msg_len := strnlen_s msg (ACVP_HASH_MSG_STR_MAX + 1)
        if tmp_msg_len > ACVP_HASH_MSG_STR_MAX then .error ACVP_INVALID_ARG
        else
          let msglen := tmp_msg_len / 2
          let max_len := lm.contentLength / 8
          if msglen ≠ max_len then .error ACVP_INVALID_ARG
          else
            let exp_len := lm.fullLength / 8
            let exp_method := read_exp_method lm.expansionTechnique
            if exp_method ≠ ACVP_HASH_EXPANSION_REPEATING then .error ACVP_INVALID_ARG
            else .ok (msg, msglen, exp_len, exp_method)

/-- The non-LDT message parsing of the handler's test loop (lines 647-678):
message must be present and fit the per-family hex maximum; its length is
converted to bits; non-MCT SHAKE tests additionally need `outLen` within the
global XOF bit bounds.  Returns (msg, msg bits, requested xof bits). -/
def aft_parse (alg_id : Nat) (test_type : ACVP_HASH_TESTTYPE) (t : TestObj) :
    Except ACVP_RESULT (String × Nat × Nat) :=
  match t.msg with
  | none => .error ACVP_MISSING_ARG
  | some msg =>
    let max_len := if ¬(alg_id = ACVP_HASH_SHAKE_128 ∨ alg_id = ACVP_HASH_SHAKE_256) then
      ACVP_HASH_MSG_STR_MAX else ACVP_SHAKE_MSG_STR_MAX
    let tmp_msg_len := strnlen_s msg (max_len + 1)
    if tmp_msg_len > max_len then .error ACVP_INVALID_ARG
    else
      let msglen := tmp_msg_len * 4
      if (alg_id = ACVP_HASH_SHAKE_128 ∨ alg_id = ACVP_HASH_SHAKE_256) ∧
          test_type ≠ MCT then
        if ¬(ACVP_HASH_XOF_MD_BIT_MIN ≤ t.outLen ∧ t.outLen ≤ ACVP_HASH_XOF_MD_BIT_MAX) then
          .error ACVP_INVALID_ARG
        else .ok (msg, msglen, t.outLen)
      else .ok (msg, msglen, 0)

/-- The body of the handler's test loop: classify/parse the test case,
initialise the context and run either the matching MCT engine or a single
engine call followed by the single-record output. -/
def hash_process_test (hexD : String → Option (List Nat)) (H : HashEngine)
    (littleEndian : Bool) (alg_id : Nat) (test_type : ACVP_HASH_TESTTYPE)
    (mct_version : Option ACVP_HASH_MCT_VERSION) (min_xof_len max_xof_len : Nat)
    (t : TestObj) : Except ACVP_RESULT TestRsp := do
  let pdata ←
    (if test_type = LDT then
      (ldt_parse alg_id t).map (fun p => (p.1, p.2.1, 0, p.2.2.1, p.2.2.2))
    else
      (aft_parse alg_id test_type t).map (fun p => (p.1, p.2.1, p.2.2, 0, 0)))
  let stc ← acvp_hash_init_tc hexD t.tcId test_type mct_version pdata.2.1 pdata.1
    pdata.2.2.1 pdata.2.2.2.1 pdata.2.2.2.2 alg_id
  if stc.test_type = some MCT then
    let recs ←
      (if alg_id = ACVP_HASH_SHA3_224 ∨ alg_id = ACVP_HASH_SHA3_256 ∨
          alg_id = ACVP_HASH_SHA3_384 ∨ alg_id = ACVP_HASH_SHA3_512 then
        acvp_hash_sha3_mct H stc
      else if alg_id = ACVP_HASH_SHAKE_128 ∨ alg_id = ACVP_HASH_SHAKE_256 then
        acvp_hash_shake_mct H littleEndian stc min_xof_len max_xof_len
      else
        acvp_hash_mct_tc H stc)
    .ok (.mct t.tcId recs)
  else
    match H stc with
    | none => .error ACVP_CRYPTO_MODULE_FAIL
    | some d =>
      let rec0 ← acvp_hash_output_tc { stc with md := d, md_len := d.length }
      .ok (.single t.tcId rec0)

/-- The handler's test loop over a group's test array. -/
def hash_process_tests (hexD : String → Option (List Nat)) (H : HashEngine)
    (littleEndian : Bool) (alg_id : Nat) (test_type : ACVP_HASH_TESTTYPE)
    (mct_version : Option ACVP_HASH_MCT_VERSION) (min_xof_len max_xof_len : Nat) :
    List TestObj → Except ACVP_RESULT (List TestRsp)
  | [] => .ok []
  | t :: ts => do
    let r ← hash_process_test hexD H littleEndian alg_id test_type mct_version
      min_xof_len max_xof_len t
    let rs ← hash_process_tests hexD H littleEndian alg_id test_type mct_version
      min_xof_len max_xof_len ts
    .ok (r :: rs)

/-- The body of the handler's group loop: group-level validation (tgId,
testType tag, VOT/XOF compatibility, MCT parameters) followed by the test
loop.  The `mctVersion` local persists across groups in the C function (it is
declared at function scope), so it is threaded through; it starts out
unwritten (`none`, standing for the indeterminate C value, which is never read
before a non-XOF MCT group assigns it). -/
def hash_process_group (hexD : String → Option (List Nat)) (H : HashEngine)
    (littleEndian : Bool) (alg_id : Nat) (mv0 : Option ACVP_HASH_MCT_VERSION)
    (g : GroupObj) : Except ACVP_RESULT (GroupRsp × Option ACVP_HASH_MCT_VERSION) := do
  if g.tgId = 0 then .error ACVP_MALFORMED_JSON
  else
    match g.testType with
    | none => .error ACVP_MISSING_ARG
    | some tts =>
      match read_test_type tts with
      | none => .error ACVP_INVALID_ARG
      | some tt =>
        if tt = VOT ∧ ¬(alg_id = ACVP_HASH_SHAKE_128 ∨ alg_id = ACVP_HASH_SHAKE_256) then
          .error ACVP_INVALID_ARG
        else do
          let gdata ←
            (if tt = MCT then
              if alg_id = ACVP_HASH_SHAKE_128 ∨ alg_id = ACVP_HASH_SHAKE_256 then
                if g.minOutLen < ACVP_HASH_XOF_MD_BIT_MIN then .error ACVP_INVALID_ARG
                else if g.maxOutLen > ACVP_HASH_XOF_MD_BIT_MAX then .error ACVP_INVALID_ARG
                else .ok (g.minOutLen, g.maxOutLen, mv0)
              else
                match g.mctVersion with
                | none => .error ACVP_TC_MISSING_DATA
                | some vs =>
                  match read_mct_version vs with
                  | none => .error ACVP_TC_INVALID_DATA
                  | some v => .ok (0, 0, some v)
            else .ok (0, 0, mv0))
          let rsps ← hash_process_tests hexD H littleEndian alg_id tt gdata.2.2
            gdata.1 gdata.2.1 g.tests
          .ok ({ tgId := g.tgId, tests := rsps }, gdata.2.2)

/-- The handler's group loop. -/
def hash_process_groups (hexD : String → Option (List Nat)) (H : HashEngine)
    (littleEndian : Bool) (alg_id : Nat) :
    Option ACVP_HASH_MCT_VERSION → List GroupObj → Except ACVP_RESULT (List GroupRsp)
  | _, [] => .ok []
  | mv, g :: gs => do
    let r ← hash_process_group hexD H littleEndian alg_id mv g
    let rs ← hash_process_groups hexD H littleEndian alg_id r.2 gs
    .ok (r.1 :: rs)

/-- `acvp_hash_kat_handler` from the test-group array onward (the preceding
steps — context check, algorithm lookup, capability lookup, response-document
scaffolding — involve only the external registry and JSON library and happen
before any group is processed).  On any error the partially built response is
discarded (`acvp_release_json`), which the `Except.error` result models: an
error carries no response data. -/
def acvp_hash_kat_handler (hexD : String → Option (List Nat)) (H : HashEngine)
    (littleEndian : Bool) (alg_id : Nat) (groups : List GroupObj) :
    Except ACVP_RESULT (List GroupRsp) :=
  hash_process_groups hexD H littleEndian alg_id none groups

theorem exceptBind_err {α β : Type} (e : ACVP_RESULT) (g : α → Except ACVP_RESULT β) :
    (Except.error e >>= g : Except ACVP_RESULT β) = .error e := rfl

theorem classicSeedSlots_m2_len (cap : Nat) (s : List Nat) (l : Nat)
    (stc : ACVP_HASH_TC) : (classicSeedSlots cap s l stc).m2_len = l := rfl

theorem classicSeedSlots_m2 (cap : Nat) (s : List Nat) (l : Nat)
    (stc : ACVP_HASH_TC) :
    (classicSeedSlots cap s l stc).m2 = (memcpy_s cap s l).1 := rfl

/-- `acvp_hash_init_tc` on a classic (non-SHA-3, non-SHAKE) MCT case with a
successful message decode: the full resulting context. -/
theorem acvp_hash_init_tc_classic_mct (hexD : String → Option (List Nat))
    (tcid : Nat) (mv : Option ACVP_HASH_MCT_VERSION) (msglen : Nat) (msg : String)
    (xof el em alg : Nat) (bytes : List Nat)
    (hsha3 : ¬(alg = ACVP_HASH_SHA3_224 ∨ alg = ACVP_HASH_SHA3_256 ∨
      alg = ACVP_HASH_SHA3_384 ∨ alg = ACVP_HASH_SHA3_512))
    (hshake : ¬(alg = ACVP_HASH_SHAKE_128 ∨ alg = ACVP_HASH_SHAKE_256))
    (hdec : acvp_hexstr_to_bin hexD msg ACVP_HASH_MSG_BYTE_MAX = some bytes) :
    acvp_hash_init_tc hexD tcid MCT mv msglen msg xof el em alg =
      .ok { tc_id := tcid, cipher := alg, test_type := some MCT,
            mct_version := mv, msg := bytes, msg_len := (msglen + 7) / 8,
            m1_len := msglen, m2_len := msglen, m3_len := msglen,
            msgCap := ACVP_HASH_MSG_BYTE_MAX, mdCap := ACVP_HASH_MSG_BYTE_MAX,
            m1Cap := ACVP_HASH_MSG_BYTE_MAX, m2Cap := ACVP_HASH_MSG_BYTE_MAX,
            m3Cap := ACVP_HASH_MSG_BYTE_MAX } := by
  unfold acvp_hash_init_tc
  simp only [if_pos hshake, if_neg hsha3, if_neg hshake, hdec]
  simp

/-- `acvp_hash_init_tc` fails with the codec error when the hex decode of the
message fails. -/
theorem acvp_hash_init_tc_decode_fail (hexD : String → Option (List Nat))
    (tcid : Nat) (tt : ACVP_HASH_TESTTYPE) (mv : Option ACVP_HASH_MCT_VERSION)
    (msglen : Nat) (msg : String) (xof el em alg : Nat)
    (hdec : acvp_hexstr_to_bin hexD msg
      (if ¬(alg = ACVP_HASH_SHAKE_128 ∨ alg = ACVP_HASH_SHAKE_256) then
        ACVP_HASH_MSG_BYTE_MAX else ACVP_SHAKE_MSG_BYTE_MAX) = none) :
    acvp_hash_init_tc hexD tcid tt mv msglen msg xof el em alg =
      .error ACVP_HEX_FAIL := by
  unfold acvp_hash_init_tc
  simp only [hdec]

/-- C9: with the standard MCT variant, `acvp_hash_mct_tc` passes
`ACVP_HASH_MD_BYTE_MAX` as destination capacity to every chaining-slot
`memcpy_s`, although `acvp_hash_init_tc` allocates every chaining buffer with
`ACVP_HASH_MSG_BYTE_MAX` bytes for any classic MCT test; hence any
standard-variant case whose seed length exceeds `ACVP_HASH_MD_BYTE_MAX`
(while fitting the actual allocation) aborts with `ACVP_INTERNAL_ERR` at the
first checked rotation copy, and the unchecked seeding copies leave zeroed
slots. -/
theorem claim_C9_standard_mct_capacity_mismatch (H : HashEngine) (stc : ACVP_HASH_TC)
    (hH : ∀ s, (H s).isSome = true)
    (hver : stc.mct_version = some STANDARD)
    (hlong : ACVP_HASH_MD_BYTE_MAX < stc.msg_len)
    (hfit : stc.msg_len ≤ ACVP_HASH_MSG_BYTE_MAX) :
    acvp_hash_mct_tc H stc = .error ACVP_INTERNAL_ERR
    ∧ (classicSeedSlots (classicMctBufferSize stc.mct_version) stc.msg stc.msg_len stc).m1
        = List.replicate stc.msg_len 0
    ∧ (∀ hexD tcid mv msglen msg xof el em alg bytes,
        ¬(alg = ACVP_HASH_SHA3_224 ∨ alg = ACVP_HASH_SHA3_256 ∨
          alg = ACVP_HASH_SHA3_384 ∨ alg = ACVP_HASH_SHA3_512) →
        ¬(alg = ACVP_HASH_SHAKE_128 ∨ alg = ACVP_HASH_SHAKE_256) →
        acvp_hexstr_to_bin hexD msg ACVP_HASH_MSG_BYTE_MAX = some bytes →
        ∃ stc', acvp_hash_init_tc hexD tcid MCT mv msglen msg xof el em alg = .ok stc' ∧
          stc'.m1Cap = ACVP_HASH_MSG_BYTE_MAX ∧ stc'.m2Cap = ACVP_HASH_MSG_BYTE_MAX ∧
          stc'.m3Cap = ACVP_HASH_MSG_BYTE_MAX ∧ stc'.mdCap = ACVP_HASH_MSG_BYTE_MAX) := by
  have hcap : classicMctBufferSize stc.mct_version = ACVP_HASH_MD_BYTE_MAX := by
    rw [hver]
    simp [classicMctBufferSize]
  have hnle : ¬(stc.msg_len ≤ ACVP_HASH_MD_BYTE_MAX) := by omega
  refine ⟨?_, ?_, ?_⟩
  · obtain ⟨d, hd⟩ := Option.isSome_iff_exists.mp
      (hH (classicSeedSlots ACVP_HASH_MD_BYTE_MAX stc.msg stc.msg_len stc))
    have hround : classicRound H ACVP_HASH_MD_BYTE_MAX
        (classicSeedSlots ACVP_HASH_MD_BYTE_MAX stc.msg stc.msg_len stc) =
        .error ACVP_INTERNAL_ERR := by
      simp only [classicRound, hd]
      have h1 : (memcpy_s ACVP_HASH_MD_BYTE_MAX
          (memcpy_s ACVP_HASH_MD_BYTE_MAX stc.msg stc.msg_len).1 stc.msg_len).2 = 1 := by
        simp [memcpy_s, hnle]
      split
      · rename_i hC
        exfalso
        simp only [classicSeedSlots_m2, classicSeedSlots_m2_len] at hC
        omega
      · rfl
    rw [acvp_hash_mct_tc, hcap]
    rw [show ACVP_HASH_MCT_OUTER = 99 + 1 from by norm_num [ACVP_HASH_MCT_OUTER]]
    rw [classicOuterLoop]
    rw [show ACVP_HASH_MCT_INNER = 999 + 1 from by norm_num [ACVP_HASH_MCT_INNER]]
    rw [classicInnerLoop, hround]
    rfl
  · rw [hcap]
    simp [classicSeedSlots, memcpy_s, hnle]
  · intro hexD tcid mv msglen msg xof el em alg bytes hsha3 hshake hdec
    refine ⟨_, acvp_hash_init_tc_classic_mct hexD tcid mv msglen msg xof el em alg
      bytes hsha3 hshake hdec, rfl, rfl, rfl, rfl⟩

/-- Concrete engine for the C9 witness. -/
def HC9w : HashEngine := fun _ => some [0]

/-- Concrete standard-variant context for the C9 witness, with a seed one byte
longer than `ACVP_HASH_MD_BYTE_MAX`. -/
def stcC9w : ACVP_HASH_TC :=
  { cipher := ACVP_HASH_SHA1, test_type := some MCT, mct_version := some STANDARD,
    msg := List.replicate 65 1, msg_len := 65 }

theorem claim_C9_witness :
    acvp_hash_mct_tc HC9w stcC9w = .error ACVP_INTERNAL_ERR
    ∧ (classicSeedSlots (classicMctBufferSize stcC9w.mct_version) stcC9w.msg
        stcC9w.msg_len stcC9w).m1 = List.replicate stcC9w.msg_len 0
    ∧ (∀ hexD tcid mv msglen msg xof el em alg bytes,
        ¬(alg = ACVP_HASH_SHA3_224 ∨ alg = ACVP_HASH_SHA3_256 ∨
          alg = ACVP_HASH_SHA3_384 ∨ alg = ACVP_HASH_SHA3_512) →
        ¬(alg = ACVP_HASH_SHAKE_128 ∨ alg = ACVP_HASH_SHAKE_256) →
        acvp_hexstr_to_bin hexD msg ACVP_HASH_MSG_BYTE_MAX = some bytes →
        ∃ stc', acvp_hash_init_tc hexD tcid MCT mv msglen msg xof el em alg = .ok stc' ∧
          stc'.m1Cap = ACVP_HASH_MSG_BYTE_MAX ∧ stc'.m2Cap = ACVP_HASH_MSG_BYTE_MAX ∧
          stc'.m3Cap = ACVP_HASH_MSG_BYTE_MAX ∧ stc'.mdCap = ACVP_HASH_MSG_BYTE_MAX) :=
  claim_C9_standard_mct_capacity_mismatch HC9w stcC9w (fun _ => rfl) rfl
    (by norm_num [stcC9w, ACVP_HASH_MD_BYTE_MAX])
    (by norm_num [stcC9w, ACVP_HASH_MSG_BYTE_MAX])

/-! ## Characterization of `acvp_hash_init_tc` (for claims C5 and C7) -/

/-- The SHAKE algorithms. -/
def shakeAlg (alg : Nat) : Prop :=
  alg = ACVP_HASH_SHAKE_128 ∨ alg = ACVP_HASH_SHAKE_256

instance (alg : Nat) : Decidable (shakeAlg alg) := by
  unfold shakeAlg
  infer_instance

/-- The SHA-3 (fixed-output) algorithms. -/
def sha3Alg (alg : Nat) : Prop :=
  alg = ACVP_HASH_SHA3_224 ∨ alg = ACVP_HASH_SHA3_256 ∨
  alg = ACVP_HASH_SHA3_384 ∨ alg = ACVP_HASH_SHA3_512

instance (alg : Nat) : Decidable (sha3Alg alg) := by
  unfold sha3Alg
  infer_instance

/-- Message-buffer capacity as a function of the algorithm alone. -/
def tcMsgCap (alg : Nat) : Nat :=
  if ¬shakeAlg alg then ACVP_HASH_MSG_BYTE_MAX else ACVP_SHAKE_MSG_BYTE_MAX

/-- Digest-buffer capacity as a function of (test type, algorithm) alone. -/
def tcMdCap (tt : ACVP_HASH_TESTTYPE) (alg : Nat) : Nat :=
  if tt = AFT ∨ tt = LDT then ACVP_HASH_MD_BYTE_MAX
  else if tt = VOT then ACVP_HASH_XOF_MD_BYTE_MAX
  else if sha3Alg alg then ACVP_HASH_MD_BYTE_MAX
  else if shakeAlg alg then ACVP_HASH_XOF_MD_BYTE_MAX
  else ACVP_HASH_MSG_BYTE_MAX

/-- Chaining-buffer capacity as a function of (test type, algorithm) alone
(0 = not allocated). -/
def tcChainCap (tt : ACVP_HASH_TESTTYPE) (alg : Nat) : Nat :=
  if tt = MCT ∧ ¬sha3Alg alg ∧ ¬shakeAlg alg then ACVP_HASH_MSG_BYTE_MAX else 0

set_option maxHeartbeats 3200000 in
/-- Full characterization of a successful `acvp_hash_init_tc`: every buffer
capacity is a function of (test type, algorithm) only, and the scalar fields
are converted exactly as the code does (bit lengths to bytes except for the
LDT values, which are stored as passed). -/
theorem acvp_hash_init_tc_fields (hexD : String → Option (List Nat)) (tcid : Nat)
    (tt : ACVP_HASH_TESTTYPE) (mv : Option ACVP_HASH_MCT_VERSION) (msglen : Nat)
    (msg : String) (xof el em alg : Nat) (stc' : ACVP_HASH_TC)
    (h : acvp_hash_init_tc hexD tcid tt mv msglen msg xof el em alg = .ok stc') :
    stc'.msgCap = tcMsgCap alg ∧ stc'.mdCap = tcMdCap tt alg ∧
    stc'.m1Cap = tcChainCap tt alg ∧ stc'.m2Cap = tcChainCap tt alg ∧
    stc'.m3Cap = tcChainCap tt alg ∧
    stc'.tc_id = tcid ∧ stc'.cipher = alg ∧ stc'.test_type = some tt ∧
    (tt = LDT → stc'.msg_len = msglen ∧ stc'.exp_len = el ∧ stc'.exp_method = em) ∧
    (tt ≠ LDT → stc'.msg_len = (msglen + 7) / 8 ∧ stc'.exp_len = 0 ∧
      stc'.exp_method = 0) ∧
    (shakeAlg alg → stc'.xof_len = (xof + 7) / 8 ∧ stc'.xof_bit_len = xof) ∧
    (tt = MCT ∧ ¬sha3Alg alg ∧ ¬shakeAlg alg →
      stc'.m1_len = msglen ∧ stc'.m2_len = msglen ∧ stc'.m3_len = msglen) := by
  unfold acvp_hash_init_tc at h
  simp only [] at h
  generalize hD : acvp_hexstr_to_bin hexD msg _ = D at h
  cases D with
  | none => exact absurd h (by simp)
  | some bytes =>
    by_cases hsk : shakeAlg alg <;> by_cases hs3 : sha3Alg alg <;> cases tt <;>
      simp only [shakeAlg, sha3Alg] at hsk hs3 <;>
      simp [hsk, hs3] at h <;> subst h <;>
      simp_all [tcMsgCap, tcMdCap, tcChainCap, shakeAlg, sha3Alg]

/-- The chaining-buffer capacity as claim C5 words it: the message capacity,
"enlarged only in alternate mode" (i.e. the digest maximum unless the variant
is alternate). -/
def claimedClassicChainCap (v : Option ACVP_HASH_MCT_VERSION) : Nat :=
  if v = some ALTERNATE then ACVP_HASH_MSG_BYTE_MAX else ACVP_HASH_MD_BYTE_MAX

/-- C5 counterexample: for a standard-variant classic MCT case,
`acvp_hash_init_tc` allocates the chaining buffers with the full message
capacity `ACVP_HASH_MSG_BYTE_MAX`, not the un-enlarged capacity the claim
describes for the standard variant. -/
theorem claim_C5_counterexample :
    (acvp_hash_init_tc (fun _ => some [171]) 1 MCT (some STANDARD) 8 "ab" 0 0 0
      ACVP_HASH_SHA256).map ACVP_HASH_TC.m1Cap = .ok ACVP_HASH_MSG_BYTE_MAX
    ∧ ACVP_HASH_MSG_BYTE_MAX ≠ claimedClassicChainCap (some STANDARD) := by
  constructor
  · rfl
  · decide

/-- C5 (amended): buffer capacities are fixed at initialization as a function
of (test type, algorithm) only — in particular they do not depend on the MCT
variant — and classic SHA-1/SHA-2 MCT allocates the digest buffer and all
three chaining buffers with the full message capacity
`ACVP_HASH_MSG_BYTE_MAX` for either variant, initializing each chaining length
to the input message length. -/
theorem claim_C5_buffer_sizing :
    (∀ hexD tcid tt mv msglen msg xof el em alg stc',
      acvp_hash_init_tc hexD tcid tt mv msglen msg xof el em alg = .ok stc' →
        stc'.msgCap = tcMsgCap alg ∧ stc'.mdCap = tcMdCap tt alg ∧
        stc'.m1Cap = tcChainCap tt alg ∧ stc'.m2Cap = tcChainCap tt alg ∧
        stc'.m3Cap = tcChainCap tt alg)
    ∧ (∀ hexD tcid mv msglen msg xof el em alg stc',
        ¬sha3Alg alg → ¬shakeAlg alg →
        acvp_hash_init_tc hexD tcid MCT mv msglen msg xof el em alg = .ok stc' →
          stc'.m1Cap = ACVP_HASH_MSG_BYTE_MAX ∧ stc'.m2Cap = ACVP_HASH_MSG_BYTE_MAX ∧
          stc'.m3Cap = ACVP_HASH_MSG_BYTE_MAX ∧ stc'.mdCap = ACVP_HASH_MSG_BYTE_MAX ∧
          stc'.m1_len = msglen ∧ stc'.m2_len = msglen ∧ stc'.m3_len = msglen) := by
  constructor
  · intro hexD tcid tt mv msglen msg xof el em alg stc' h
    have hf := acvp_hash_init_tc_fields hexD tcid tt mv msglen msg xof el em alg stc' h
    exact ⟨hf.1, hf.2.1, hf.2.2.1, hf.2.2.2.1, hf.2.2.2.2.1⟩
  · intro hexD tcid mv msglen msg xof el em alg stc' hs3 hsk h
    have hf := acvp_hash_init_tc_fields hexD tcid MCT mv msglen msg xof el em alg stc' h
    have hchain : tcChainCap MCT alg = ACVP_HASH_MSG_BYTE_MAX := by
      simp [tcChainCap, hs3, hsk]
    have hmd : tcMdCap MCT alg = ACVP_HASH_MSG_BYTE_MAX := by
      simp [tcMdCap, hs3, hsk]
    have hlens := hf.2.2.2.2.2.2.2.2.2.2.2 ⟨rfl, hs3, hsk⟩
    refine ⟨?_, ?_, ?_, ?_, hlens.1, hlens.2.1, hlens.2.2⟩
    · rw [hf.2.2.1, hchain]
    · rw [hf.2.2.2.1, hchain]
    · rw [hf.2.2.2.2.1, hchain]
    · rw [hf.2.1, hmd]

/-- The context produced by the C5 witness instantiation. -/
def stcC5w : ACVP_HASH_TC :=
  { tc_id := 1, cipher := ACVP_HASH_SHA256, test_type := some MCT,
    mct_version := some STANDARD, msg := [171], msg_len := 1,
    m1_len := 8, m2_len := 8, m3_len := 8,
    msgCap := ACVP_HASH_MSG_BYTE_MAX, mdCap := ACVP_HASH_MSG_BYTE_MAX,
    m1Cap := ACVP_HASH_MSG_BYTE_MAX, m2Cap := ACVP_HASH_MSG_BYTE_MAX,
    m3Cap := ACVP_HASH_MSG_BYTE_MAX }

theorem claim_C5_witness :
    acvp_hash_init_tc (fun _ => some [171]) 1 MCT (some STANDARD) 8 "ab" 0 0 0
      ACVP_HASH_SHA256 = .ok stcC5w
    ∧ stcC5w.msgCap = tcMsgCap ACVP_HASH_SHA256
    ∧ stcC5w.mdCap = tcMdCap MCT ACVP_HASH_SHA256
    ∧ stcC5w.m1Cap = tcChainCap MCT ACVP_HASH_SHA256
    ∧ stcC5w.m2Cap = tcChainCap MCT ACVP_HASH_SHA256
    ∧ stcC5w.m3Cap = tcChainCap MCT ACVP_HASH_SHA256
    ∧ stcC5w.m1_len = 8 ∧ stcC5w.m2_len = 8 ∧ stcC5w.m3_len = 8 := by
  have hinit : acvp_hash_init_tc (fun _ => some [171]) 1 MCT (some STANDARD) 8 "ab" 0 0 0
      ACVP_HASH_SHA256 = .ok stcC5w := by rfl
  have h1 := claim_C5_buffer_sizing.1 (fun _ => some [171]) 1 MCT (some STANDARD) 8 "ab"
    0 0 0 ACVP_HASH_SHA256 stcC5w hinit
  have h2 := claim_C5_buffer_sizing.2 (fun _ => some [171]) 1 (some STANDARD) 8 "ab"
    0 0 0 ACVP_HASH_SHA256 stcC5w (by decide) (by decide) hinit
  exact ⟨hinit, h1.1, h1.2.1, h1.2.2.1, h1.2.2.2.1, h1.2.2.2.2,
    h2.2.2.2.2.1, h2.2.2.2.2.2.1, h2.2.2.2.2.2.2⟩

/-- Characterization of a successful `ldt_parse`: the algorithm was in range,
the descriptor and its content were present, and the returned lengths are the
parser's byte conversions (hex characters halved, `fullLength / 8`). -/
theorem ldt_parse_ok (alg : Nat) (t : TestObj) (p : String × Nat × Nat × Nat)
    (h : ldt_parse alg t = .ok p) :
    ∃ lm s, t.largeMsg = some lm ∧ lm.content = some s ∧
      p = (s, strnlen_s s (ACVP_HASH_MSG_STR_MAX + 1) / 2, lm.fullLength / 8,
        read_exp_method lm.expansionTechnique) ∧
      ¬(alg < ACVP_HASH_SHA1 ∨ alg > ACVP_HASH_SHA3_512) := by
  unfold ldt_parse at h
  split at h
  · exact absurd h (by simp)
  · rename_i halg
    cases hlm : t.largeMsg with
    | none => rw [hlm] at h; exact absurd h (by simp)
    | some lm =>
      rw [hlm] at h
      simp only [] at h
      cases hc : lm.content with
      | none => rw [hc] at h; exact absurd h (by simp)
      | some s =>
        rw [hc] at h
        simp only [] at h
        split at h
        · exact absurd h (by simp)
        · split at h
          · exact absurd h (by simp)
          · split at h
            · exact absurd h (by simp)
            · refine ⟨lm, s, rfl, hc, ?_, halg⟩
              simp only [Except.ok.injEq] at h
              exact h.symm

/-- C7 counterexample: for an LDT case with `fullLength` = 16 bits the handler
converts the full-length target to bytes (16/8 = 2) and `acvp_hash_init_tc`
stores that byte value, not the raw bit length 16. -/
theorem claim_C7_counterexample :
    ldt_parse ACVP_HASH_SHA256
      { tcId := 1,
        largeMsg := some
          { content := some "aabb", contentLength := 16, fullLength := 16,
            expansionTechnique := some "repeating" } } =
      .ok ("aabb", 2, 2, 1)
    ∧ (acvp_hash_init_tc (fun _ => some [170, 187]) 1 LDT none 2 "aabb" 0 2 1
        ACVP_HASH_SHA256).map ACVP_HASH_TC.exp_len = .ok 2
    ∧ (2 : Nat) ≠ 16 := by
  refine ⟨by rfl, by rfl, by decide⟩

/-- C7 (amended): `acvp_hash_init_tc` converts the parsed bit lengths to byte
lengths for every test type except LDT, whose length values it stores exactly
as passed — but those LDT values have already been converted to bytes by the
handler's parser (`contentLength` via hex-character halving, the full-length
target as `fullLength / 8`), so the stored full-length target is a byte
count, not the raw bit length. -/
theorem claim_C7_length_conversion :
    (∀ hexD tcid tt mv msglen msg xof el em alg stc', tt ≠ LDT →
      acvp_hash_init_tc hexD tcid tt mv msglen msg xof el em alg = .ok stc' →
        stc'.msg_len = (msglen + 7) / 8 ∧
        (shakeAlg alg → stc'.xof_len = (xof + 7) / 8 ∧ stc'.xof_bit_len = xof))
    ∧ (∀ hexD tcid mv msglen msg xof el em alg stc',
        acvp_hash_init_tc hexD tcid LDT mv msglen msg xof el em alg = .ok stc' →
          stc'.msg_len = msglen ∧ stc'.exp_len = el ∧ stc'.exp_method = em)
    ∧ (∀ alg t p, ldt_parse alg t = .ok p →
        ∃ lm s, t.largeMsg = some lm ∧ lm.content = some s ∧
          p.2.1 = strnlen_s s (ACVP_HASH_MSG_STR_MAX + 1) / 2 ∧
          p.2.2.1 = lm.fullLength / 8) := by
  refine ⟨?_, ?_, ?_⟩
  · intro hexD tcid tt mv msglen msg xof el em alg stc' htt h
    have hf := acvp_hash_init_tc_fields hexD tcid tt mv msglen msg xof el em alg stc' h
    exact ⟨(hf.2.2.2.2.2.2.2.2.2.1 htt).1, hf.2.2.2.2.2.2.2.2.2.2.1⟩
  · intro hexD tcid mv msglen msg xof el em alg stc' h
    have hf := acvp_hash_init_tc_fields hexD tcid LDT mv msglen msg xof el em alg stc' h
    exact hf.2.2.2.2.2.2.2.2.1 rfl
  · intro alg t p h
    obtain ⟨lm, s, hlm, hc, hp, -⟩ := ldt_parse_ok alg t p h
    exact ⟨lm, s, hlm, hc, by rw [hp], by rw [hp]⟩

theorem claim_C7_witness :
    ((2 : Nat) + 7) / 8 = 1
    ∧ (∀ stc', acvp_hash_init_tc (fun _ => some [170]) 1 AFT none 2 "aa" 0 0 0
        ACVP_HASH_SHA1 = .ok stc' → stc'.msg_len = (2 + 7) / 8 ∧
        (shakeAlg ACVP_HASH_SHA1 → stc'.xof_len = (0 + 7) / 8 ∧ stc'.xof_bit_len = 0))
    ∧ (∀ stc', acvp_hash_init_tc (fun _ => some [170]) 1 LDT none 1 "aa" 0 2 1
        ACVP_HASH_SHA1 = .ok stc' →
          stc'.msg_len = 1 ∧ stc'.exp_len = 2 ∧ stc'.exp_method = 1) :=
  ⟨by decide,
   fun stc' h => claim_C7_length_conversion.1 (fun _ => some [170]) 1 AFT none 2 "aa"
     0 0 0 ACVP_HASH_SHA1 stc' (by decide) h,
   fun stc' h => claim_C7_length_conversion.2.1 (fun _ => some [170]) 1 none 1 "aa"
     0 2 1 ACVP_HASH_SHA1 stc' h⟩

/-- Whether an `Except` result is a success. -/
def exceptIsOk {α : Type} : Except ACVP_RESULT α → Bool
  | .ok _ => true
  | .error _ => false

/-- Concrete hex decoder for the C8 counterexample. -/
def hexC8w : String → Option (List Nat) := fun _ => some [170, 187]

/-- Concrete engine for the C8 counterexample. -/
def HC8w : HashEngine := fun _ => some [1]

/-- A `largeMsg` descriptor whose stated content length (17 bits) does not
equal the decoded content's byte length × 8 (2 bytes = 16 bits). -/
def lmC8w : LargeMsgObj :=
  { content := some "aabb", contentLength := 17, fullLength := 8,
    expansionTechnique := some "repeating" }

/-- An LDT vector set carrying `lmC8w`. -/
def gC8w : GroupObj :=
  { tgId := 1, testType := some "LDT", tests := [{ tcId := 1, largeMsg := some lmC8w }] }

/-- C8 counterexample: the handler accepts an LDT case whose stated content
length (17 bits) differs from the decoded content's byte length × 8 (16),
because the check compares `contentLength / 8` (floor) with the byte count. -/
theorem claim_C8_counterexample :
    exceptIsOk (acvp_hash_kat_handler hexC8w HC8w true ACVP_HASH_SHA256 [gC8w]) = true
    ∧ (17 : Nat) ≠ 2 * 8 := by
  constructor
  · rfl
  · decide

/-- C8 (amended): for an LDT test case (algorithm in range, content present
and within bounds), the handler fails with `ACVP_INVALID_ARG` when
`⌊contentLength/8⌋` differs from the decoded content's byte count, and when
the expansion technique does not read as "repeating"; the full target length
is never validated (the parse outcome is independent of `fullLength`). -/
theorem claim_C8_ldt_validation :
    (∀ alg t lm s, t.largeMsg = some lm → lm.content = some s →
      ¬(alg < ACVP_HASH_SHA1 ∨ alg > ACVP_HASH_SHA3_512) →
      ¬(strnlen_s s (ACVP_HASH_MSG_STR_MAX + 1) > ACVP_HASH_MSG_STR_MAX) →
      (strnlen_s s (ACVP_HASH_MSG_STR_MAX + 1) / 2 ≠ lm.contentLength / 8 →
        ldt_parse alg t = .error ACVP_INVALID_ARG)
      ∧ (read_exp_method lm.expansionTechnique ≠ ACVP_HASH_EXPANSION_REPEATING →
        ldt_parse alg t = .error ACVP_INVALID_ARG))
    ∧ (∀ alg (t : TestObj) (lm : LargeMsgObj) (a b : Nat),
        exceptIsOk (ldt_parse alg { t with largeMsg := some { lm with fullLength := a } }) =
        exceptIsOk (ldt_parse alg { t with largeMsg := some { lm with fullLength := b } })) := by
  constructor
  · intro alg t lm s hlm hc halg hfit
    constructor
    · intro hne
      unfold ldt_parse
      rw [if_neg halg, hlm]
      simp only []
      rw [hc]
      simp only []
      rw [if_neg hfit, if_pos hne]
    · intro hexp
      unfold ldt_parse
      rw [if_neg halg, hlm]
      simp only []
      rw [hc]
      simp only []
      rw [if_neg hfit]
      by_cases hne : strnlen_s s (ACVP_HASH_MSG_STR_MAX + 1) / 2 ≠ lm.contentLength / 8
      · rw [if_pos hne]
      · rw [if_neg hne, if_pos hexp]
  · intro alg t lm a b
    unfold ldt_parse
    simp only [TestObj.largeMsg]
    cases hc : lm.content with
    | none => rfl
    | some s =>
      simp only [LargeMsgObj.content, hc]
      split
      · rfl
      · split
        · rfl
        · split
          · rfl
          · split
            · rfl
            · rfl

/-- Descriptor with a genuinely mismatching content length (32 bits vs 2
bytes). -/
def lmC8len : LargeMsgObj :=
  { content := some "aabb", contentLength := 32, fullLength := 8,
    expansionTechnique := some "repeating" }

/-- Descriptor with an unsupported expansion technique. -/
def lmC8exp : LargeMsgObj :=
  { content := some "aabb", contentLength := 16, fullLength := 8,
    expansionTechnique := some "weird" }

/-- Descriptor with matching lengths and a supported technique. -/
def lmC8ok : LargeMsgObj :=
  { content := some "aabb", contentLength := 16,
    expansionTechnique := some "repeating" }

theorem claim_C8_witness :
    ldt_parse ACVP_HASH_SHA256 { tcId := 1, largeMsg := some lmC8len } =
      .error ACVP_INVALID_ARG
    ∧ ldt_parse ACVP_HASH_SHA256 { tcId := 1, largeMsg := some lmC8exp } =
      .error ACVP_INVALID_ARG
    ∧ exceptIsOk (ldt_parse ACVP_HASH_SHA256
        { tcId := 1, largeMsg := some { lmC8ok with fullLength := 64 } }) =
      exceptIsOk (ldt_parse ACVP_HASH_SHA256
        { tcId := 1, largeMsg := some { lmC8ok with fullLength := 8000 } }) :=
  ⟨(claim_C8_ldt_validation.1 ACVP_HASH_SHA256 _ lmC8len "aabb" rfl rfl (by decide)
      (by decide)).1 (by decide),
   (claim_C8_ldt_validation.1 ACVP_HASH_SHA256 _ lmC8exp "aabb" rfl rfl (by decide)
      (by decide)).2 (by decide),
   claim_C8_ldt_validation.2 ACVP_HASH_SHA256 { tcId := 1 } lmC8ok 64 8000⟩

/-- C10: a test case in an LDT group whose algorithm identifier lies outside
`ACVP_HASH_SHA1 .. ACVP_HASH_SHA3_512` (in particular the SHAKE algorithms) is
rejected with `ACVP_INVALID_ARG` before the `largeMsg` descriptor is read (the
result is the same for every possible descriptor), and the whole vector set is
rejected with that result. -/
theorem claim_C10_ldt_alg_range (hexD : String → Option (List Nat)) (H : HashEngine)
    (littleEndian : Bool) (alg : Nat) (g : GroupObj) (t : TestObj) (ts : List TestObj)
    (gs : List GroupObj) (s : String)
    (halg : alg < ACVP_HASH_SHA1 ∨ alg > ACVP_HASH_SHA3_512)
    (htg : ¬(g.tgId = 0))
    (hs : g.testType = some s)
    (hrd : read_test_type s = some LDT)
    (htests : g.tests = t :: ts) :
    (∀ t' : TestObj, ldt_parse alg t' = .error ACVP_INVALID_ARG)
    ∧ acvp_hash_kat_handler hexD H littleEndian alg (g :: gs) =
        .error ACVP_INVALID_ARG := by
  have hldt : ∀ t' : TestObj, ldt_parse alg t' = .error ACVP_INVALID_ARG := by
    intro t'
    unfold ldt_parse
    rw [if_pos halg]
  refine ⟨hldt, ?_⟩
  have htest : hash_process_test hexD H littleEndian alg LDT none 0 0 t =
      .error ACVP_INVALID_ARG := by
    unfold hash_process_test
    simp [hldt t, Bind.bind, Except.bind, Except.map]
  have htsts : hash_process_tests hexD H littleEndian alg LDT none 0 0 (t :: ts) =
      .error ACVP_INVALID_ARG := by
    unfold hash_process_tests
    simp [htest, Bind.bind, Except.bind]
  have hgroup : hash_process_group hexD H littleEndian alg none g =
      .error ACVP_INVALID_ARG := by
    unfold hash_process_group
    rw [if_neg htg, hs]
    simp only []
    rw [hrd]
    simp only []
    rw [if_neg (by simp)]
    simp only [show (LDT = MCT) = False from by simp, if_false]
    rw [htests]
    simp [htsts, Bind.bind, Except.bind]
  unfold acvp_hash_kat_handler hash_process_groups
  simp [hgroup, Bind.bind, Except.bind]

/-- Concrete LDT group for the C10 witness. -/
def gC10w : GroupObj :=
  { tgId := 4, testType := some "LDT", tests := [{ tcId := 9 }] }

theorem claim_C10_witness :
    (∀ t' : TestObj, ldt_parse ACVP_HASH_SHAKE_128 t' = .error ACVP_INVALID_ARG)
    ∧ acvp_hash_kat_handler (fun _ => some []) (fun _ => some []) true
        ACVP_HASH_SHAKE_128 [gC10w] = .error ACVP_INVALID_ARG :=
  claim_C10_ldt_alg_range (fun _ => some []) (fun _ => some []) true
    ACVP_HASH_SHAKE_128 gC10w { tcId := 9 } [] [] "LDT"
    (by decide) (by decide) rfl (by decide) rfl

theorem exceptBind_ok_iff {α β : Type} (x : Except ACVP_RESULT α)
    (g : α → Except ACVP_RESULT β) (b : β) :
    (x >>= g) = .ok b ↔ ∃ a, x = .ok a ∧ g a = .ok b := by
  cases x <;> simp [Bind.bind, Except.bind]

theorem hash_process_tests_length (hexD : String → Option (List Nat)) (H : HashEngine)
    (littleEndian : Bool) (alg : Nat) (tt : ACVP_HASH_TESTTYPE)
    (mv : Option ACVP_HASH_MCT_VERSION) (minx maxx : Nat) :
    ∀ (ts : List TestObj) (rs : List TestRsp),
      hash_process_tests hexD H littleEndian alg tt mv minx maxx ts = .ok rs →
      rs.length = ts.length := by
  intro ts
  induction ts with
  | nil =>
    intro rs h
    simp [hash_process_tests] at h
    simp [← h]
  | cons t ts ih =>
    intro rs h
    unfold hash_process_tests at h
    obtain ⟨r, -, h⟩ := (exceptBind_ok_iff _ _ _).mp h
    obtain ⟨rs', hrs', h⟩ := (exceptBind_ok_iff _ _ _).mp h
    simp only [Except.ok.injEq] at h
    subst h
    simp [ih rs' hrs']

theorem hash_process_group_shape (hexD : String → Option (List Nat)) (H : HashEngine)
    (littleEndian : Bool) (alg : Nat) (mv : Option ACVP_HASH_MCT_VERSION)
    (g : GroupObj) (r : GroupRsp × Option ACVP_HASH_MCT_VERSION)
    (h : hash_process_group hexD H littleEndian alg mv g = .ok r) :
    r.1.tgId = g.tgId ∧ r.1.tests.length = g.tests.length := by
  unfold hash_process_group at h
  split at h
  · exact absurd h (by simp)
  · split at h
    · exact absurd h (by simp)
    · split at h
      · exact absurd h (by simp)
      · split at h
        · exact absurd h (by simp)
        · obtain ⟨gdata, -, h⟩ := (exceptBind_ok_iff _ _ _).mp h
          obtain ⟨rsps, hrsps, h⟩ := (exceptBind_ok_iff _ _ _).mp h
          simp only [Except.ok.injEq] at h
          subst h
          exact ⟨rfl, hash_process_tests_length hexD H littleEndian alg _ _ _ _
            g.tests rsps hrsps⟩

theorem hash_process_groups_shape (hexD : String → Option (List Nat)) (H : HashEngine)
    (littleEndian : Bool) (alg : Nat) :
    ∀ (groups : List GroupObj) (mv : Option ACVP_HASH_MCT_VERSION) (doc : List GroupRsp),
      hash_process_groups hexD H littleEndian alg mv groups = .ok doc →
      doc.map (fun gr => (gr.tgId, gr.tests.length)) =
        groups.map (fun g => (g.tgId, g.tests.length)) := by
  intro groups
  induction groups with
  | nil =>
    intro mv doc h
    simp [hash_process_groups] at h
    simp [← h]
  | cons g gs ih =>
    intro mv doc h
    unfold hash_process_groups at h
    obtain ⟨r, hr, h⟩ := (exceptBind_ok_iff _ _ _).mp h
    obtain ⟨rs, hrs, h⟩ := (exceptBind_ok_iff _ _ _).mp h
    simp only [Except.ok.injEq] at h
    subst h
    obtain ⟨h1, h2⟩ := hash_process_group_shape hexD H littleEndian alg mv g r hr
    simp [h1, h2, ih r.2 rs hrs]

/-- C6: a hash-engine failure aborts the whole MCT run with
`ACVP_CRYPTO_MODULE_FAIL` (shown for each of the three MCT engines at the
first engine call, plus propagation of any later inner-loop error through the
outer loop), and the vector-set handler emits a response document only when
every group and every test case succeeded — an `Except.error` result carries
no partial document. -/
theorem claim_C6_error_abort :
    (∀ (H : HashEngine) (stc : ACVP_HASH_TC),
      H (classicSeedSlots (classicMctBufferSize stc.mct_version) stc.msg stc.msg_len stc)
        = none →
      acvp_hash_mct_tc H stc = .error ACVP_CRYPTO_MODULE_FAIL)
    ∧ (∀ (H : HashEngine) (stc : ACVP_HASH_TC), H (clearMd stc) = none →
        acvp_hash_sha3_mct H stc = .error ACVP_CRYPTO_MODULE_FAIL)
    ∧ (∀ (H : HashEngine) (le : Bool) (stc : ACVP_HASH_TC) (minb maxb : Nat),
        H (clearMd { stc with
          xof_len := shakeInitXofLen maxb, msg_len := shakeLeftmostBytes }) = none →
        acvp_hash_shake_mct H le stc minb maxb = .error ACVP_CRYPTO_MODULE_FAIL)
    ∧ (∀ (H : HashEngine) (cap n : Nat) (seed : List Nat) (sl : Nat)
        (stc : ACVP_HASH_TC) (e : ACVP_RESULT),
        classicInnerLoop H cap ACVP_HASH_MCT_INNER (classicSeedSlots cap seed sl stc)
          = .error e →
        classicOuterLoop H cap (n + 1) seed sl stc = .error e)
    ∧ (∀ (H : HashEngine) (isl n : Nat) (stc : ACVP_HASH_TC) (e : ACVP_RESULT),
        sha3InnerLoop H isl (ACVP_HASH_MCT_INNER + 1) 0 stc = .error e →
        sha3OuterLoop H isl (n + 1) stc = .error e)
    ∧ (∀ (H : HashEngine) (le : Bool) (mb rg n : Nat) (stc : ACVP_HASH_TC)
        (e : ACVP_RESULT),
        shakeInnerLoop H le mb rg (ACVP_HASH_MCT_INNER + 1) 0 stc = .error e →
        shakeOuterLoop H le mb rg (n + 1) stc = .error e)
    ∧ (∀ hexD (H : HashEngine) (le : Bool) (alg : Nat) (groups : List GroupObj)
        (doc : List GroupRsp),
        acvp_hash_kat_handler hexD H le alg groups = .ok doc →
        doc.map (fun gr => (gr.tgId, gr.tests.length)) =
          groups.map (fun g => (g.tgId, g.tests.length))) := by
  refine ⟨?_, ?_, ?_, ?_, ?_, ?_, ?_⟩
  · intro H stc hfail
    rw [acvp_hash_mct_tc]
    rw [show ACVP_HASH_MCT_OUTER = 99 + 1 from by norm_num [ACVP_HASH_MCT_OUTER]]
    rw [classicOuterLoop]
    rw [show ACVP_HASH_MCT_INNER = 999 + 1 from by norm_num [ACVP_HASH_MCT_INNER]]
    rw [classicInnerLoop]
    rw [classicRound, hfail]
    rfl
  · intro H stc hfail
    rw [acvp_hash_sha3_mct]
    rw [show ACVP_HASH_MCT_OUTER = 99 + 1 from by norm_num [ACVP_HASH_MCT_OUTER]]
    rw [sha3OuterLoop, sha3InnerLoop]
    simp only [ne_eq, not_true_eq_false, reduceIte, if_neg (by simp : ¬(0 ≠ 0 ∧
      0 = ACVP_HASH_MCT_INNER))]
    rw [hfail]
    rfl
  · intro H le stc minb maxb hfail
    rw [acvp_hash_shake_mct]
    rw [show ACVP_HASH_MCT_OUTER = 99 + 1 from by norm_num [ACVP_HASH_MCT_OUTER]]
    rw [shakeOuterLoop, shakeInnerLoop]
    simp only [ne_eq, not_true_eq_false, reduceIte, if_neg (by simp : ¬(0 ≠ 0 ∧
      0 = ACVP_HASH_MCT_INNER))]
    rw [hfail]
    rfl
  · intro H cap n seed sl stc e h
    simp only [classicOuterLoop, h, exceptBind_err]
  · intro H isl n stc e h
    rw [sha3OuterLoop, h]
    rfl
  · intro H le mb rg n stc e h
    rw [shakeOuterLoop, h]
    rfl
  · intro hexD H le alg groups doc h
    exact hash_process_groups_shape hexD H le alg groups none doc h

/-- Always-failing engine for the C6 witness. -/
def HC6w : HashEngine := fun _ => none

/-- Default context for the C6 witness. -/
def stcC6w : ACVP_HASH_TC := {}

theorem claim_C6_witness :
    acvp_hash_mct_tc HC6w stcC6w = .error ACVP_CRYPTO_MODULE_FAIL
    ∧ acvp_hash_sha3_mct HC6w stcC6w = .error ACVP_CRYPTO_MODULE_FAIL
    ∧ acvp_hash_shake_mct HC6w true stcC6w 16 136 = .error ACVP_CRYPTO_MODULE_FAIL
    ∧ classicOuterLoop HC6w 0 1 [] 0 stcC6w = .error ACVP_CRYPTO_MODULE_FAIL
    ∧ sha3OuterLoop HC6w 0 1 stcC6w = .error ACVP_CRYPTO_MODULE_FAIL
    ∧ shakeOuterLoop HC6w true 2 18 1 stcC6w = .error ACVP_CRYPTO_MODULE_FAIL
    ∧ ([] : List GroupRsp).map (fun gr => (gr.tgId, gr.tests.length)) =
        ([] : List GroupObj).map (fun g => (g.tgId, g.tests.length)) :=
  ⟨claim_C6_error_abort.1 HC6w stcC6w rfl,
   claim_C6_error_abort.2.1 HC6w stcC6w rfl,
   claim_C6_error_abort.2.2.1 HC6w true stcC6w 16 136 rfl,
   claim_C6_error_abort.2.2.2.1 HC6w 0 0 [] 0 stcC6w ACVP_CRYPTO_MODULE_FAIL (by rfl),
   claim_C6_error_abort.2.2.2.2.1 HC6w 0 0 stcC6w ACVP_CRYPTO_MODULE_FAIL (by rfl),
   claim_C6_error_abort.2.2.2.2.2.1 HC6w true 2 18 0 stcC6w ACVP_CRYPTO_MODULE_FAIL
     (by rfl),
   claim_C6_error_abort.2.2.2.2.2.2 (fun _ => some []) HC6w true 1 [] [] rfl⟩

/-! ## Proof infrastructure for the SHA-3 MCT -/

/-- The state entering a SHA-3 pass: message buffer content `mc` with length
field `ml`, digest `d` just written by the engine. -/
def sha3EntrySt (stc0 : ACVP_HASH_TC) (mc : List Nat) (ml : Nat) (d : List Nat) :
    ACVP_HASH_TC :=
  { stc0 with msg := mc, msg_len := ml, md := d, md_len := d.length }

/-- The message content written by `sha3Replace` (a function of the variant,
the initial seed length and the digest alone). -/
def sha3ReplC (v : Option ACVP_HASH_MCT_VERSION) (isl : Nat) (d : List Nat) :
    List Nat :=
  if v = some ALTERNATE then
    (memcpy_s ACVP_HASH_MSG_BYTE_MAX d (if d.length > isl then isl else d.length)).1
  else (memcpy_s ACVP_HASH_MSG_BYTE_MAX d d.length).1

/-- The message length written by `sha3Replace`. -/
def sha3ReplL (v : Option ACVP_HASH_MCT_VERSION) (isl : Nat) (d : List Nat) : Nat :=
  if v = some ALTERNATE then isl else d.length

theorem sha3Replace_entry (stc0 : ACVP_HASH_TC) (isl : Nat) (mc : List Nat)
    (ml : Nat) (d : List Nat) :
    sha3Replace isl (sha3EntrySt stc0 mc ml d) =
      sha3EntrySt stc0 (sha3ReplC stc0.mct_version isl d)
        (sha3ReplL stc0.mct_version isl d) d := by
  by_cases hv : stc0.mct_version = some ALTERNATE <;>
    simp [sha3Replace, sha3EntrySt, sha3ReplC, sha3ReplL, hv]

theorem bufRead_length (l : List Nat) (n : Nat) : (bufRead l n).length = n := by
  simp [bufRead]
  omega

theorem sha3Repl_logical (v : Option ACVP_HASH_MCT_VERSION) (isl : Nat)
    (d : List Nat) (hd : d.length ≤ ACVP_HASH_MSG_BYTE_MAX) :
    bufRead (sha3ReplC v isl d) (sha3ReplL v isl d) = sha3ReplaceSpec v isl d := by
  by_cases hv : v = some ALTERNATE
  · simp only [sha3ReplC, sha3ReplL, sha3ReplaceSpec, if_pos hv]
    by_cases hlen : d.length > isl
    · rw [if_pos hlen, memcpy_s_le _ _ _ (by omega)]
      have h0 : isl - d.length = 0 := by omega
      simp [bufRead, zeroPadTo, h0, List.take_take]
      omega
    · rw [if_neg hlen, memcpy_s_le _ _ _ (by omega), bufRead_self]
      rfl
  · simp only [sha3ReplC, sha3ReplL, sha3ReplaceSpec, if_neg hv]
    rw [memcpy_s_le _ _ _ hd, bufRead_self, bufRead_self]

theorem sha3InnerLoop_from (H : HashEngine) (f : List Nat → List Nat)
    (stc0 : ACVP_HASH_TC) (isl : Nat)
    (hH : ∀ s, H s = some (f (bufRead s.msg s.msg_len)))
    (hf : ∀ m', (f m').length ≤ ACVP_HASH_MSG_BYTE_MAX) :
    ∀ (m : Nat) (mc : List Nat) (ml : Nat) (d : List Nat),
      m + 1 ≤ ACVP_HASH_MCT_INNER → d.length ≤ ACVP_HASH_MSG_BYTE_MAX →
      sha3InnerLoop H isl (m + 1) (ACVP_HASH_MCT_INNER - m) (sha3EntrySt stc0 mc ml d) =
        .ok (sha3EntrySt stc0
          (sha3ReplC stc0.mct_version isl
            ((fun x => f (sha3ReplaceSpec stc0.mct_version isl x))^[m] d))
          (sha3ReplL stc0.mct_version isl
            ((fun x => f (sha3ReplaceSpec stc0.mct_version isl x))^[m] d))
          ((fun x => f (sha3ReplaceSpec stc0.mct_version isl x))^[m] d)) := by
  have hI : ACVP_HASH_MCT_INNER = 1000 := rfl
  intro m
  induction m with
  | zero =>
    intro mc ml d hm hd
    rw [sha3InnerLoop]
    rw [if_pos (by omega : ACVP_HASH_MCT_INNER - 0 ≠ 0)]
    rw [if_pos ⟨by omega, by omega⟩]
    rw [sha3Replace_entry]
    simp
  | succ m ih =>
    intro mc ml d hm hd
    rw [sha3InnerLoop]
    rw [if_pos (by omega : ACVP_HASH_MCT_INNER - (m + 1) ≠ 0)]
    rw [if_neg (by omega : ¬(ACVP_HASH_MCT_INNER - (m + 1) ≠ 0 ∧
      ACVP_HASH_MCT_INNER - (m + 1) = ACVP_HASH_MCT_INNER))]
    rw [sha3Replace_entry]
    have hHs : H (clearMd (sha3EntrySt stc0 (sha3ReplC stc0.mct_version isl d)
        (sha3ReplL stc0.mct_version isl d) d)) =
        some (f (sha3ReplaceSpec stc0.mct_version isl d)) := by
      rw [hH]
      have hmsg : (clearMd (sha3EntrySt stc0 (sha3ReplC stc0.mct_version isl d)
          (sha3ReplL stc0.mct_version isl d) d)).msg =
          sha3ReplC stc0.mct_version isl d := rfl
      have hml : (clearMd (sha3EntrySt stc0 (sha3ReplC stc0.mct_version isl d)
          (sha3ReplL stc0.mct_version isl d) d)).msg_len =
          sha3ReplL stc0.mct_version isl d := rfl
      rw [hmsg, hml, sha3Repl_logical _ _ _ hd]
    simp only [hHs]
    rw [show ACVP_HASH_MCT_INNER - (m + 1) + 1 = ACVP_HASH_MCT_INNER - m from by omega]
    show sha3InnerLoop H isl (m + 1) (ACVP_HASH_MCT_INNER - m)
        (sha3EntrySt stc0 (sha3ReplC stc0.mct_version isl d)
          (sha3ReplL stc0.mct_version isl d)
          (f (sha3ReplaceSpec stc0.mct_version isl d))) = _
    rw [ih (sha3ReplC stc0.mct_version isl d) (sha3ReplL stc0.mct_version isl d)
      (f (sha3ReplaceSpec stc0.mct_version isl d)) (by omega) (hf _)]
    rw [← Function.iterate_succ_apply]

theorem sha3Iteration_ok (H : HashEngine) (f : List Nat → List Nat)
    (stc0 : ACVP_HASH_TC) (isl : Nat)
    (hH : ∀ s, H s = some (f (bufRead s.msg s.msg_len)))
    (hf : ∀ m', (f m').length ≤ ACVP_HASH_MSG_BYTE_MAX)
    (mc : List Nat) (ml : Nat) (d : List Nat) :
    sha3InnerLoop H isl (ACVP_HASH_MCT_INNER + 1) 0 (sha3EntrySt stc0 mc ml d) =
      .ok (sha3EntrySt stc0
        (sha3ReplC stc0.mct_version isl
          (sha3IterMd f stc0.mct_version isl (bufRead mc ml)))
        (sha3ReplL stc0.mct_version isl
          (sha3IterMd f stc0.mct_version isl (bufRead mc ml)))
        (sha3IterMd f stc0.mct_version isl (bufRead mc ml))) := by
  have hI : ACVP_HASH_MCT_INNER = 1000 := rfl
  rw [sha3InnerLoop]
  rw [if_neg (by omega : ¬(0 ≠ 0)), if_neg (by simp)]
  have hHs : H (clearMd (sha3EntrySt stc0 mc ml d)) = some (f (bufRead mc ml)) := by
    rw [hH]
    rfl
  simp only [hHs]
  show sha3InnerLoop H isl ((ACVP_HASH_MCT_INNER - 1) + 1)
      (ACVP_HASH_MCT_INNER - (ACVP_HASH_MCT_INNER - 1))
      (sha3EntrySt stc0 mc ml (f (bufRead mc ml))) = _
  rw [sha3InnerLoop_from H f stc0 isl hH hf (ACVP_HASH_MCT_INNER - 1) mc ml
    (f (bufRead mc ml)) (by omega) (hf _)]
  rfl

theorem sha3IterMd_is_f (f : List Nat → List Nat) (v : Option ACVP_HASH_MCT_VERSION)
    (isl : Nat) (m : List Nat) : ∃ x, sha3IterMd f v isl m = f x := by
  rw [sha3IterMd]
  cases hk : ACVP_HASH_MCT_INNER - 1 with
  | zero => exact ⟨m, rfl⟩
  | succ k =>
    rw [Function.iterate_succ_apply']
    exact ⟨_, rfl⟩

theorem sha3OuterLoop_ok (H : HashEngine) (f : List Nat → List Nat)
    (stc0 : ACVP_HASH_TC) (isl : Nat)
    (hH : ∀ s, H s = some (f (bufRead s.msg s.msg_len)))
    (hf : ∀ m', (f m').length ≤ ACVP_HASH_MSG_BYTE_MAX)
    (hstr : ∀ m', 2 * (f m').length ≤ ACVP_HASH_MD_STR_MAX)
    (hcip : ¬(stc0.cipher = ACVP_HASH_SHAKE_128 ∨ stc0.cipher = ACVP_HASH_SHAKE_256)) :
    ∀ (n : Nat) (mc : List Nat) (ml : Nat) (d : List Nat),
      sha3OuterLoop H isl n (sha3EntrySt stc0 mc ml d) =
        .ok (sha3RecordsSpec f stc0.mct_version isl n (bufRead mc ml)) := by
  intro n
  induction n with
  | zero =>
    intro mc ml d
    simp [sha3OuterLoop, sha3RecordsSpec]
  | succ n ih =>
    intro mc ml d
    obtain ⟨x, hx⟩ := sha3IterMd_is_f f stc0.mct_version isl (bufRead mc ml)
    have hout : acvp_hash_output_mct_tc (sha3EntrySt stc0
        (sha3ReplC stc0.mct_version isl
          (sha3IterMd f stc0.mct_version isl (bufRead mc ml)))
        (sha3ReplL stc0.mct_version isl
          (sha3IterMd f stc0.mct_version isl (bufRead mc ml)))
        (sha3IterMd f stc0.mct_version isl (bufRead mc ml))) =
        .ok { md := sha3IterMd f stc0.mct_version isl (bufRead mc ml),
              outLen := none } := by
      have hlen : 2 * (sha3IterMd f stc0.mct_version isl (bufRead mc ml)).length ≤
          ACVP_HASH_MD_STR_MAX := by
        rw [hx]; exact hstr x
      simp only [acvp_hash_output_mct_tc, sha3EntrySt]
      simp [hcip, hlen, bufRead_self]
    rw [sha3OuterLoop]
    rw [sha3Iteration_ok H f stc0 isl hH hf mc ml d]
    rw [exceptBind_ok, hout, exceptBind_ok]
    rw [ih]
    rw [sha3Repl_logical _ _ _ (by rw [hx]; exact hf x)]
    rfl

/-- C2: per outer iteration `acvp_hash_sha3_mct` computes pass 0 directly from
the current message, replaces the message with the previous digest (truncated
or zero-padded to the original seed length in alternate mode) on passes
1..1000, breaking on pass 1000 right after the replacement; the recorded
digest is the last one computed (pass 999, i.e. the
`ACVP_HASH_MCT_INNER`-fold chain), and its replacement becomes the next
iteration's seed — the run equals the claim's recurrence for all
`ACVP_HASH_MCT_OUTER = 100` iterations. -/
theorem claim_C2_sha3_mct (H : HashEngine) (f : List Nat → List Nat)
    (stc : ACVP_HASH_TC)
    (hH : ∀ s, H s = some (f (bufRead s.msg s.msg_len)))
    (hf : ∀ m', (f m').length ≤ ACVP_HASH_MSG_BYTE_MAX)
    (hstr : ∀ m', 2 * (f m').length ≤ ACVP_HASH_MD_STR_MAX)
    (hmd : stc.md_len = stc.md.length)
    (hcip : ¬(stc.cipher = ACVP_HASH_SHAKE_128 ∨ stc.cipher = ACVP_HASH_SHAKE_256)) :
    acvp_hash_sha3_mct H stc =
      .ok (sha3RecordsSpec f stc.mct_version stc.msg_len ACVP_HASH_MCT_OUTER
        (bufRead stc.msg stc.msg_len))
    ∧ (∀ (v : Option ACVP_HASH_MCT_VERSION) (isl : Nat) (m : List Nat),
        (sha3RecordsSpec f v isl ACVP_HASH_MCT_OUTER m).length = 100)
    ∧ (∀ (v : Option ACVP_HASH_MCT_VERSION) (isl n : Nat) (m : List Nat),
        sha3RecordsSpec f v isl (n + 1) m =
          { md := sha3IterMd f v isl m, outLen := none } ::
            sha3RecordsSpec f v isl n (sha3ReplaceSpec v isl (sha3IterMd f v isl m))) := by
  refine ⟨?_, ?_, ?_⟩
  · have hstc : sha3EntrySt stc stc.msg stc.msg_len stc.md = stc := by
      cases stc
      simp_all [sha3EntrySt]
    have h := sha3OuterLoop_ok H f stc stc.msg_len hH hf hstr hcip
      ACVP_HASH_MCT_OUTER stc.msg stc.msg_len stc.md
    rw [hstc] at h
    rw [acvp_hash_sha3_mct]
    exact h
  · intro v isl m
    have : ∀ (k : Nat) (m' : List Nat), (sha3RecordsSpec f v isl k m').length = k := by
      intro k
      induction k with
      | zero => intro m'; rfl
      | succ k ih => intro m'; rw [sha3RecordsSpec]; simp [ih]
    rw [this]
    rfl
  · intro v isl n m
    rfl

/-- Constant digest function for the C2 witness. -/
def fC2w : List Nat → List Nat := fun _ => [5]

/-- Concrete engine for the C2 witness. -/
def HC2w : HashEngine := fun _ => some [5]

/-- Concrete SHA-3 MCT context for the C2 witness. -/
def stcC2w : ACVP_HASH_TC :=
  { cipher := ACVP_HASH_SHA3_256, test_type := some MCT, mct_version := some STANDARD,
    msg := [1], msg_len := 1 }

theorem claim_C2_witness :
    acvp_hash_sha3_mct HC2w stcC2w =
      .ok (sha3RecordsSpec fC2w stcC2w.mct_version stcC2w.msg_len ACVP_HASH_MCT_OUTER
        (bufRead stcC2w.msg stcC2w.msg_len))
    ∧ (∀ (v : Option ACVP_HASH_MCT_VERSION) (isl : Nat) (m : List Nat),
        (sha3RecordsSpec fC2w v isl ACVP_HASH_MCT_OUTER m).length = 100)
    ∧ (∀ (v : Option ACVP_HASH_MCT_VERSION) (isl n : Nat) (m : List Nat),
        sha3RecordsSpec fC2w v isl (n + 1) m =
          { md := sha3IterMd fC2w v isl m, outLen := none } ::
            sha3RecordsSpec fC2w v isl n
              (sha3ReplaceSpec v isl (sha3IterMd fC2w v isl m))) :=
  claim_C2_sha3_mct HC2w fC2w stcC2w (fun _ => rfl)
    (fun _ => by norm_num [fC2w, ACVP_HASH_MSG_BYTE_MAX])
    (fun _ => by norm_num [fC2w, ACVP_HASH_MD_STR_MAX, ACVP_HASH_MD_BYTE_MAX])
    rfl
    (by norm_num [stcC2w, ACVP_HASH_SHA3_256, ACVP_HASH_SHAKE_128, ACVP_HASH_SHAKE_256])

/-! ## Proof infrastructure for the SHAKE MCT -/

/-- The state entering a SHAKE pass. -/
def shakeEntrySt (stc0 : ACVP_HASH_TC) (mc : List Nat) (ml : Nat) (d : List Nat)
    (x : Nat) : ACVP_HASH_TC :=
  { stc0 with msg := mc, msg_len := ml, md := d, md_len := d.length, xof_len := x }

/-- The message content written by `shakeRebuild` (a function of the digest
alone). -/
def shakeRebC (d : List Nat) : List Nat :=
  if d.length ≤ shakeLeftmostBytes then
    (memcpy_s ACVP_SHAKE_MSG_BYTE_MAX d d.length).1
  else (memcpy_s ACVP_SHAKE_MSG_BYTE_MAX d shakeLeftmostBytes).1

theorem shakeRebuild_entry (stc0 : ACVP_HASH_TC) (mc : List Nat) (ml : Nat)
    (d : List Nat) (x : Nat) :
    shakeRebuild (shakeEntrySt stc0 mc ml d x) =
      shakeEntrySt stc0 (shakeRebC d) ml d x := by
  by_cases hd : d.length ≤ shakeLeftmostBytes <;>
    simp [shakeRebuild, shakeEntrySt, shakeRebC, hd]

theorem shakeRebC_logical (d : List Nat) :
    bufRead (shakeRebC d) shakeLeftmostBytes =
      bufRead (d.take shakeLeftmostBytes) shakeLeftmostBytes := by
  have h16 : shakeLeftmostBytes ≤ ACVP_SHAKE_MSG_BYTE_MAX := by
    norm_num [shakeLeftmostBytes, ACVP_SHAKE_MSG_BYTE_MAX]
  by_cases hd : d.length ≤ shakeLeftmostBytes
  · rw [shakeRebC, if_pos hd, memcpy_s_le _ _ _ (by omega), bufRead_self]
    rw [List.take_of_length_le hd]
  · rw [shakeRebC, if_neg hd, memcpy_s_le _ _ _ h16]
    have : bufRead d shakeLeftmostBytes = d.take shakeLeftmostBytes := by
      simp [bufRead]
      omega
    rw [this]

theorem shakeRightmost_eq (littleEndian : Bool) (md : List Nat) (md_len : Nat) :
    shakeRightmostOutBits littleEndian md md_len =
      md.getD (md_len - 1) 0 + 256 * md.getD (md_len - 2) 0 := by
  cases littleEndian <;> simp [shakeRightmostOutBits] <;> ring

theorem shakeNextXofLen_eq (littleEndian : Bool) (mb rng : Nat) (d : List Nat) :
    shakeNextXofLen littleEndian mb rng d d.length =
      mb + shakeCombineSpec d % rng := by
  rw [shakeNextXofLen, shakeRightmost_eq]
  rfl

/-- The (digest, requested-length) step of one computed SHAKE pass, tracking
the full digest rather than the rebuilt 16-byte message. -/
def shakeDigStep (f : List Nat → Nat → List Nat) (mb rng : Nat)
    (dx : List Nat × Nat) : List Nat × Nat :=
  let d' := f (bufRead (dx.1.take shakeLeftmostBytes) shakeLeftmostBytes) dx.2
  (d', mb + shakeCombineSpec d' % rng)

theorem shakeInnerLoop_from (H : HashEngine) (f : List Nat → Nat → List Nat)
    (stc0 : ACVP_HASH_TC) (littleEndian : Bool) (mb rng : Nat)
    (hH : ∀ s, H s = some (f (bufRead s.msg s.msg_len) s.xof_len)) :
    ∀ (m : Nat) (mc : List Nat) (d : List Nat) (x : Nat),
      m + 1 ≤ ACVP_HASH_MCT_INNER →
      shakeInnerLoop H littleEndian mb rng (m + 1) (ACVP_HASH_MCT_INNER - m)
          (shakeEntrySt stc0 mc shakeLeftmostBytes d x) =
        .ok (shakeEntrySt stc0
          (shakeRebC ((shakeDigStep f mb rng)^[m] (d, x)).1) shakeLeftmostBytes
          ((shakeDigStep f mb rng)^[m] (d, x)).1
          ((shakeDigStep f mb rng)^[m] (d, x)).2) := by
  have hI : ACVP_HASH_MCT_INNER = 1000 := rfl
  intro m
  induction m with
  | zero =>
    intro mc d x hm
    rw [shakeInnerLoop]
    rw [if_pos (by omega : ACVP_HASH_MCT_INNER - 0 ≠ 0)]
    rw [if_pos ⟨by omega, by omega⟩]
    rw [shakeRebuild_entry]
    simp
  | succ m ih =>
    intro mc d x hm
    rw [shakeInnerLoop]
    rw [if_pos (by omega : ACVP_HASH_MCT_INNER - (m + 1) ≠ 0)]
    rw [if_neg (by omega : ¬(ACVP_HASH_MCT_INNER - (m + 1) ≠ 0 ∧
      ACVP_HASH_MCT_INNER - (m + 1) = ACVP_HASH_MCT_INNER))]
    rw [shakeRebuild_entry]
    have hstc2 : ({ shakeEntrySt stc0 (shakeRebC d) shakeLeftmostBytes d x with
        msg_len := shakeLeftmostBytes } : ACVP_HASH_TC) =
        shakeEntrySt stc0 (shakeRebC d) shakeLeftmostBytes d x := rfl
    rw [hstc2]
    have hHs : H (clearMd (shakeEntrySt stc0 (shakeRebC d) shakeLeftmostBytes d x)) =
        some (f (bufRead (d.take shakeLeftmostBytes) shakeLeftmostBytes) x) := by
      rw [hH]
      have h1 : (clearMd (shakeEntrySt stc0 (shakeRebC d) shakeLeftmostBytes d x)).msg
          = shakeRebC d := rfl
      have h2 : (clearMd (shakeEntrySt stc0 (shakeRebC d) shakeLeftmostBytes d x)).msg_len
          = shakeLeftmostBytes := rfl
      have h3 : (clearMd (shakeEntrySt stc0 (shakeRebC d) shakeLeftmostBytes d x)).xof_len
          = x := rfl
      rw [h1, h2, h3, shakeRebC_logical]
    simp only [hHs]
    rw [show ACVP_HASH_MCT_INNER - (m + 1) + 1 = ACVP_HASH_MCT_INNER - m from by omega]
    show shakeInnerLoop H littleEndian mb rng (m + 1) (ACVP_HASH_MCT_INNER - m)
        (shakeEntrySt stc0 (shakeRebC d) shakeLeftmostBytes
          (f (bufRead (d.take shakeLeftmostBytes) shakeLeftmostBytes) x)
          (shakeNextXofLen littleEndian mb rng
            (f (bufRead (d.take shakeLeftmostBytes) shakeLeftmostBytes) x)
            (f (bufRead (d.take shakeLeftmostBytes) shakeLeftmostBytes) x).length)) = _
    rw [shakeNextXofLen_eq]
    rw [ih (shakeRebC d) (f (bufRead (d.take shakeLeftmostBytes) shakeLeftmostBytes) x)
      (mb + shakeCombineSpec
        (f (bufRead (d.take shakeLeftmostBytes) shakeLeftmostBytes) x) % rng)
      (by omega)]
    have hpair : (f (bufRead (d.take shakeLeftmostBytes) shakeLeftmostBytes) x,
        mb + shakeCombineSpec
          (f (bufRead (d.take shakeLeftmostBytes) shakeLeftmostBytes) x) % rng) =
        shakeDigStep f mb rng (d, x) := rfl
    rw [hpair, ← Function.iterate_succ_apply]

/-- The (digest, next-length) pair produced by pass 0 from message content
`mc` at requested length `x`. -/
def shakeP0 (f : List Nat → Nat → List Nat) (mb rng : Nat) (mc : List Nat)
    (x : Nat) : List Nat × Nat :=
  (f (bufRead mc shakeLeftmostBytes) x,
   mb + shakeCombineSpec (f (bufRead mc shakeLeftmostBytes) x) % rng)

theorem shakeStepSpec_digStep (f : List Nat → Nat → List Nat) (mb rng : Nat) :
    ∀ (k : Nat) (D : List Nat) (X : Nat),
      (shakeStepSpec f mb rng)^[k] (D.take shakeLeftmostBytes, X) =
        (((shakeDigStep f mb rng)^[k] (D, X)).1.take shakeLeftmostBytes,
          ((shakeDigStep f mb rng)^[k] (D, X)).2) := by
  intro k
  induction k with
  | zero => intro D X; rfl
  | succ k ih =>
    intro D X
    rw [Function.iterate_succ_apply, Function.iterate_succ_apply]
    have h1 : shakeStepSpec f mb rng (D.take shakeLeftmostBytes, X) =
        ((shakeDigStep f mb rng (D, X)).1.take shakeLeftmostBytes,
          (shakeDigStep f mb rng (D, X)).2) := rfl
    rw [h1, ih ((shakeDigStep f mb rng (D, X)).1) ((shakeDigStep f mb rng (D, X)).2)]

theorem shakeRecordsSpec_succ_eq (f : List Nat → Nat → List Nat) (mb rng n : Nat)
    (mc : List Nat) (x : Nat) :
    shakeRecordsSpec f mb rng (n + 1) (mc, x) =
      { md := ((shakeDigStep f mb rng)^[ACVP_HASH_MCT_INNER - 1] (shakeP0 f mb rng mc x)).1,
        outLen := some
          (((shakeDigStep f mb rng)^[ACVP_HASH_MCT_INNER - 1] (shakeP0 f mb rng mc x)).1.length * 8) } ::
        shakeRecordsSpec f mb rng n
          (((shakeDigStep f mb rng)^[ACVP_HASH_MCT_INNER - 1] (shakeP0 f mb rng mc x)).1.take
            shakeLeftmostBytes,
           ((shakeDigStep f mb rng)^[ACVP_HASH_MCT_INNER - 1] (shakeP0 f mb rng mc x)).2) := by
  have hI : ACVP_HASH_MCT_INNER = 1000 := rfl
  rw [shakeRecordsSpec]
  have hiter : (shakeStepSpec f mb rng)^[ACVP_HASH_MCT_INNER - 1] (mc, x) =
      (((shakeDigStep f mb rng)^[ACVP_HASH_MCT_INNER - 2] (shakeP0 f mb rng mc x)).1.take
        shakeLeftmostBytes,
       ((shakeDigStep f mb rng)^[ACVP_HASH_MCT_INNER - 2] (shakeP0 f mb rng mc x)).2) := by
    rw [show ACVP_HASH_MCT_INNER - 1 = (ACVP_HASH_MCT_INNER - 2) + 1 from by omega]
    rw [Function.iterate_succ_apply]
    have h0 : shakeStepSpec f mb rng (mc, x) =
        ((shakeP0 f mb rng mc x).1.take shakeLeftmostBytes, (shakeP0 f mb rng mc x).2) := rfl
    rw [h0, shakeStepSpec_digStep f mb rng (ACVP_HASH_MCT_INNER - 2)
      ((shakeP0 f mb rng mc x).1) ((shakeP0 f mb rng mc x).2)]
  rw [hiter]
  have hpass : shakePassSpec f mb rng
      (((shakeDigStep f mb rng)^[ACVP_HASH_MCT_INNER - 2] (shakeP0 f mb rng mc x)).1.take
        shakeLeftmostBytes,
       ((shakeDigStep f mb rng)^[ACVP_HASH_MCT_INNER - 2] (shakeP0 f mb rng mc x)).2) =
      (((shakeDigStep f mb rng)^[ACVP_HASH_MCT_INNER - 1] (shakeP0 f mb rng mc x)).1,
        (((shakeDigStep f mb rng)^[ACVP_HASH_MCT_INNER - 1] (shakeP0 f mb rng mc x)).1.take
          shakeLeftmostBytes,
         ((shakeDigStep f mb rng)^[ACVP_HASH_MCT_INNER - 1] (shakeP0 f mb rng mc x)).2)) := by
    rw [show ACVP_HASH_MCT_INNER - 1 = (ACVP_HASH_MCT_INNER - 2) + 1 from by omega]
    rw [Function.iterate_succ_apply']
    rfl
  rw [hpass]

theorem shakeDigStep_iterate_is_f (f : List Nat → Nat → List Nat) (mb rng : Nat)
    (k : Nat) (P : List Nat × Nat) (hP : ∃ a b, P.1 = f a b) :
    ∃ a b, ((shakeDigStep f mb rng)^[k] P).1 = f a b := by
  cases k with
  | zero => exact hP
  | succ k =>
    rw [Function.iterate_succ_apply']
    exact ⟨_, _, rfl⟩

theorem shakeRecordsSpec_congr (f : List Nat → Nat → List Nat) (mb rng : Nat) :
    ∀ (n : Nat) (c c' : List Nat) (x : Nat),
      bufRead c shakeLeftmostBytes = bufRead c' shakeLeftmostBytes →
      shakeRecordsSpec f mb rng n (c, x) = shakeRecordsSpec f mb rng n (c', x) := by
  have hI : ACVP_HASH_MCT_INNER = 1000 := rfl
  intro n c c' x h
  cases n with
  | zero => rfl
  | succ n =>
    have hstep : shakeStepSpec f mb rng (c, x) = shakeStepSpec f mb rng (c', x) := by
      simp [shakeStepSpec, shakePassSpec, h]
    have hiter : (shakeStepSpec f mb rng)^[ACVP_HASH_MCT_INNER - 1] (c, x) =
        (shakeStepSpec f mb rng)^[ACVP_HASH_MCT_INNER - 1] (c', x) := by
      rw [show ACVP_HASH_MCT_INNER - 1 = (ACVP_HASH_MCT_INNER - 2) + 1 from by omega]
      rw [Function.iterate_succ_apply, Function.iterate_succ_apply, hstep]
    rw [shakeRecordsSpec, shakeRecordsSpec]
    simp only [hiter]

theorem shakeIteration_ok (H : HashEngine) (f : List Nat → Nat → List Nat)
    (stc0 : ACVP_HASH_TC) (littleEndian : Bool) (mb rng : Nat)
    (hH : ∀ s, H s = some (f (bufRead s.msg s.msg_len) s.xof_len))
    (mc : List Nat) (ml : Nat) (d : List Nat) (x : Nat) :
    shakeInnerLoop H littleEndian mb rng (ACVP_HASH_MCT_INNER + 1) 0
        (shakeEntrySt stc0 mc ml d x) =
      .ok (shakeEntrySt stc0
        (shakeRebC ((shakeDigStep f mb rng)^[ACVP_HASH_MCT_INNER - 1] (shakeP0 f mb rng mc x)).1)
        shakeLeftmostBytes
        ((shakeDigStep f mb rng)^[ACVP_HASH_MCT_INNER - 1] (shakeP0 f mb rng mc x)).1
        ((shakeDigStep f mb rng)^[ACVP_HASH_MCT_INNER - 1] (shakeP0 f mb rng mc x)).2) := by
  have hI : ACVP_HASH_MCT_INNER = 1000 := rfl
  rw [shakeInnerLoop]
  rw [if_neg (by omega : ¬(0 ≠ 0)), if_neg (by simp)]
  have hHs : H (clearMd { shakeEntrySt stc0 mc ml d x with
      msg_len := shakeLeftmostBytes }) =
      some (f (bufRead mc shakeLeftmostBytes) x) := by
    rw [hH]
    rfl
  simp only [hHs]
  rw [shakeNextXofLen_eq]
  show shakeInnerLoop H littleEndian mb rng ((ACVP_HASH_MCT_INNER - 1) + 1)
      (ACVP_HASH_MCT_INNER - (ACVP_HASH_MCT_INNER - 1))
      (shakeEntrySt stc0 mc shakeLeftmostBytes
        (f (bufRead mc shakeLeftmostBytes) x)
        (mb + shakeCombineSpec (f (bufRead mc shakeLeftmostBytes) x) % rng)) = _
  rw [shakeInnerLoop_from H f stc0 littleEndian mb rng hH (ACVP_HASH_MCT_INNER - 1)
    mc (f (bufRead mc shakeLeftmostBytes) x)
    (mb + shakeCombineSpec (f (bufRead mc shakeLeftmostBytes) x) % rng) (by omega)]
  rfl

theorem shakeOuterLoop_ok (H : HashEngine) (f : List Nat → Nat → List Nat)
    (stc0 : ACVP_HASH_TC) (littleEndian : Bool) (mb rng : Nat)
    (hH : ∀ s, H s = some (f (bufRead s.msg s.msg_len) s.xof_len))
    (hstr : ∀ m' x', 2 * (f m' x').length ≤ ACVP_HASH_XOF_MD_STR_MAX)
    (hcip : stc0.cipher = ACVP_HASH_SHAKE_128 ∨ stc0.cipher = ACVP_HASH_SHAKE_256) :
    ∀ (n : Nat) (mc : List Nat) (ml : Nat) (d : List Nat) (x : Nat),
      shakeOuterLoop H littleEndian mb rng n (shakeEntrySt stc0 mc ml d x) =
        .ok (shakeRecordsSpec f mb rng n (mc, x)) := by
  intro n
  induction n with
  | zero =>
    intro mc ml d x
    simp [shakeOuterLoop, shakeRecordsSpec]
  | succ n ih =>
    intro mc ml d x
    rw [shakeOuterLoop]
    rw [shakeIteration_ok H f stc0 littleEndian mb rng hH mc ml d x]
    rw [exceptBind_ok]
    obtain ⟨a, b, hab⟩ := shakeDigStep_iterate_is_f f mb rng (ACVP_HASH_MCT_INNER - 1)
      (shakeP0 f mb rng mc x) ⟨_, _, rfl⟩
    have hout : acvp_hash_output_mct_tc (shakeEntrySt stc0
        (shakeRebC ((shakeDigStep f mb rng)^[ACVP_HASH_MCT_INNER - 1] (shakeP0 f mb rng mc x)).1)
        shakeLeftmostBytes
        ((shakeDigStep f mb rng)^[ACVP_HASH_MCT_INNER - 1] (shakeP0 f mb rng mc x)).1
        ((shakeDigStep f mb rng)^[ACVP_HASH_MCT_INNER - 1] (shakeP0 f mb rng mc x)).2) =
        .ok { md := ((shakeDigStep f mb rng)^[ACVP_HASH_MCT_INNER - 1] (shakeP0 f mb rng mc x)).1,
              outLen := some
                (((shakeDigStep f mb rng)^[ACVP_HASH_MCT_INNER - 1] (shakeP0 f mb rng mc x)).1.length * 8) } := by
      have hlen : 2 * ((shakeDigStep f mb rng)^[ACVP_HASH_MCT_INNER - 1]
          (shakeP0 f mb rng mc x)).1.length ≤ ACVP_HASH_XOF_MD_STR_MAX := by
        rw [hab]; exact hstr a b
      simp only [acvp_hash_output_mct_tc, shakeEntrySt]
      simp [hcip, hlen, bufRead_self]
    rw [hout, exceptBind_ok]
    rw [ih (shakeRebC ((shakeDigStep f mb rng)^[ACVP_HASH_MCT_INNER - 1] (shakeP0 f mb rng mc x)).1)
      shakeLeftmostBytes
      ((shakeDigStep f mb rng)^[ACVP_HASH_MCT_INNER - 1] (shakeP0 f mb rng mc x)).1
      ((shakeDigStep f mb rng)^[ACVP_HASH_MCT_INNER - 1] (shakeP0 f mb rng mc x)).2]
    rw [shakeRecordsSpec_congr f mb rng n
      (shakeRebC ((shakeDigStep f mb rng)^[ACVP_HASH_MCT_INNER - 1] (shakeP0 f mb rng mc x)).1)
      (((shakeDigStep f mb rng)^[ACVP_HASH_MCT_INNER - 1] (shakeP0 f mb rng mc x)).1.take
        shakeLeftmostBytes)
      ((shakeDigStep f mb rng)^[ACVP_HASH_MCT_INNER - 1] (shakeP0 f mb rng mc x)).2
      (shakeRebC_logical _)]
    rw [shakeRecordsSpec_succ_eq]
    rfl

theorem shakeInitXofLen_eq (m : Nat) : shakeInitXofLen m = m / 8 := by
  unfold shakeInitXofLen
  omega

/-- `acvp_hash_shake_mct` refines the claim's recurrence: the initial
requested length is `⌊maxOutLen/8⌋` bytes, every pass feeds the engine a
16-byte message, and the length/message chaining follows
`shakeRecordsSpec`. -/
theorem acvp_hash_shake_mct_ok (H : HashEngine) (f : List Nat → Nat → List Nat)
    (stc : ACVP_HASH_TC) (littleEndian : Bool) (minb maxb : Nat)
    (hH : ∀ s, H s = some (f (bufRead s.msg s.msg_len) s.xof_len))
    (hstr : ∀ m' x', 2 * (f m' x').length ≤ ACVP_HASH_XOF_MD_STR_MAX)
    (hmd : stc.md_len = stc.md.length)
    (hcip : stc.cipher = ACVP_HASH_SHAKE_128 ∨ stc.cipher = ACVP_HASH_SHAKE_256) :
    acvp_hash_shake_mct H littleEndian stc minb maxb =
      .ok (shakeRecordsSpec f (minb / 8) (maxb / 8 - minb / 8 + 1)
        ACVP_HASH_MCT_OUTER (stc.msg, maxb / 8)) := by
  have hstc : shakeEntrySt stc stc.msg stc.msg_len stc.md (maxb / 8) =
      { stc with xof_len := shakeInitXofLen maxb } := by
    cases stc
    simp_all [shakeEntrySt, shakeInitXofLen_eq]
  have h := shakeOuterLoop_ok H f stc littleEndian (minb / 8)
    (maxb / 8 - minb / 8 + 1) hH hstr hcip ACVP_HASH_MCT_OUTER stc.msg stc.msg_len
    stc.md (maxb / 8)
  rw [hstc] at h
  rw [acvp_hash_shake_mct]
  exact h

/-- The engine used by the C4 counterexample: echo the logical message the
engine is fed. -/
def HC4w : HashEngine := fun s => some (bufRead s.msg s.msg_len)

/-- A SHAKE MCT context whose message is a single byte (length 1 ≠ 16). -/
def stcC4w : ACVP_HASH_TC :=
  { cipher := ACVP_HASH_SHAKE_128, test_type := some MCT, msg := [171], msg_len := 1 }

/-- Pass 0 as claim C4 words it: the engine is fed the original (unmodified)
message with its original length, i.e. it is called on the context as-is. -/
def claimedShakePass0 (H : HashEngine) (stc : ACVP_HASH_TC) : Option (List Nat) :=
  H stc

/-- C4 counterexample: the digest actually computed at pass 0 comes from a
16-byte zero-padded message (`msg_len` is forced to 16 before the first
engine call), not from the original 1-byte message the claim describes. -/
theorem claim_C4_counterexample :
    (shakeInnerLoop HC4w true 2 18 1 0 stcC4w).map ACVP_HASH_TC.md =
      .ok (bufRead [171] shakeLeftmostBytes)
    ∧ claimedShakePass0 HC4w stcC4w = some [171]
    ∧ bufRead [171] shakeLeftmostBytes ≠ [171] := by
  refine ⟨rfl, rfl, by decide⟩

/-- C4 (amended): within each SHAKE MCT outer iteration, every computed pass —
including pass 0 — feeds the engine a 16-byte message (`msg_len` is set to
`leftmost_bytes` before each engine call, so pass 0 uses the original message
buffer zero-padded or truncated to 16 bytes, not its original length); passes
1..1000 first rebuild the message from the leftmost 16 bytes of the previous
digest (the whole digest zero-padded when shorter), and pass 1000 breaks
immediately after the rebuild without computing a digest. -/
theorem claim_C4_shake_msg_rebuild (H : HashEngine) (f : List Nat → Nat → List Nat)
    (stc : ACVP_HASH_TC) (littleEndian : Bool) (minb maxb : Nat)
    (hH : ∀ s, H s = some (f (bufRead s.msg s.msg_len) s.xof_len))
    (hstr : ∀ m' x', 2 * (f m' x').length ≤ ACVP_HASH_XOF_MD_STR_MAX)
    (hmd : stc.md_len = stc.md.length)
    (hcip : stc.cipher = ACVP_HASH_SHAKE_128 ∨ stc.cipher = ACVP_HASH_SHAKE_256) :
    acvp_hash_shake_mct H littleEndian stc minb maxb =
      .ok (shakeRecordsSpec f (minb / 8) (maxb / 8 - minb / 8 + 1)
        ACVP_HASH_MCT_OUTER (stc.msg, maxb / 8))
    ∧ (∀ (mb rng n : Nat) (s : ACVP_HASH_TC),
        shakeInnerLoop H littleEndian mb rng (n + 1) ACVP_HASH_MCT_INNER s =
          .ok (shakeRebuild s))
    ∧ (∀ (c : List Nat) (x : Nat),
        shakeStepSpec f (minb / 8) (maxb / 8 - minb / 8 + 1) (c, x) =
          ((f (bufRead c shakeLeftmostBytes) x).take shakeLeftmostBytes,
            minb / 8 + shakeCombineSpec (f (bufRead c shakeLeftmostBytes) x) %
              (maxb / 8 - minb / 8 + 1))) := by
  refine ⟨acvp_hash_shake_mct_ok H f stc littleEndian minb maxb hH hstr hmd hcip,
    ?_, ?_⟩
  · intro mb rng n s
    rw [shakeInnerLoop]
    rw [if_pos (by norm_num [ACVP_HASH_MCT_INNER] : ACVP_HASH_MCT_INNER ≠ 0)]
    rw [if_pos ⟨by norm_num [ACVP_HASH_MCT_INNER], rfl⟩]
  · intro c x
    rfl

/-- Constant two-byte digest function for the C4/C3 witnesses. -/
def fC4w : List Nat → Nat → List Nat := fun _ _ => [1, 2]

/-- Concrete engine matching `fC4w`. -/
def HC4fw : HashEngine := fun _ => some [1, 2]

/-- Concrete SHAKE MCT context for the C4/C3 witnesses. -/
def stcC4fw : ACVP_HASH_TC :=
  { cipher := ACVP_HASH_SHAKE_128, test_type := some MCT, msg := [171], msg_len := 1 }

theorem claim_C4_witness :
    acvp_hash_shake_mct HC4fw true stcC4fw 16 136 =
      .ok (shakeRecordsSpec fC4w (16 / 8) (136 / 8 - 16 / 8 + 1)
        ACVP_HASH_MCT_OUTER (stcC4fw.msg, 136 / 8))
    ∧ (∀ (mb rng n : Nat) (s : ACVP_HASH_TC),
        shakeInnerLoop HC4fw true mb rng (n + 1) ACVP_HASH_MCT_INNER s =
          .ok (shakeRebuild s))
    ∧ (∀ (c : List Nat) (x : Nat),
        shakeStepSpec fC4w (16 / 8) (136 / 8 - 16 / 8 + 1) (c, x) =
          ((fC4w (bufRead c shakeLeftmostBytes) x).take shakeLeftmostBytes,
            16 / 8 + shakeCombineSpec (fC4w (bufRead c shakeLeftmostBytes) x) %
              (136 / 8 - 16 / 8 + 1))) :=
  claim_C4_shake_msg_rebuild HC4fw fC4w stcC4fw true 16 136 (fun _ => rfl)
    (fun _ _ => by norm_num [fC4w, ACVP_HASH_XOF_MD_STR_MAX, ACVP_HASH_XOF_MD_BYTE_MAX])
    rfl (Or.inl rfl)

theorem listGetD_lt_256 (md : List Nat) (i : Nat) (h : ∀ b ∈ md, b < 256) :
    md.getD i 0 < 256 := by
  by_cases hi : i < md.length
  · rw [List.getD_eq_getElem _ _ hi]
    exact h _ (List.getElem_mem hi)
  · rw [List.getD_eq_default _ _ (by omega)]
    norm_num

/-- C3: the running requested SHAKE output length starts at `⌊maxOutLen/8⌋`
bytes; after each computed pass the next length is derived from the digest's
two trailing bytes combined as a 16-bit value (numerically last byte low,
second-to-last high) — the same value under either endianness branch — as
`min_len_bytes + value % (max_len_bytes − min_len_bytes + 1)`; consequently
the whole MCT run does not depend on the host's endianness branch. -/
theorem claim_C3_shake_xof_derivation :
    (∀ (le : Bool) (md : List Nat) (l : Nat),
      shakeRightmostOutBits le md l = md.getD (l - 1) 0 + 256 * md.getD (l - 2) 0)
    ∧ (∀ (le : Bool) (md : List Nat) (l : Nat), (∀ b ∈ md, b < 256) →
        shakeRightmostOutBits le md l < 65536)
    ∧ (∀ m : Nat, shakeInitXofLen m = m / 8)
    ∧ (∀ (le : Bool) (mb rng : Nat) (d : List Nat),
        shakeNextXofLen le mb rng d d.length = mb + shakeCombineSpec d % rng)
    ∧ (∀ (H : HashEngine) (f : List Nat → Nat → List Nat) (stc : ACVP_HASH_TC)
        (minb maxb : Nat) (le le' : Bool),
        (∀ s, H s = some (f (bufRead s.msg s.msg_len) s.xof_len)) →
        (∀ m' x', 2 * (f m' x').length ≤ ACVP_HASH_XOF_MD_STR_MAX) →
        stc.md_len = stc.md.length →
        (stc.cipher = ACVP_HASH_SHAKE_128 ∨ stc.cipher = ACVP_HASH_SHAKE_256) →
        acvp_hash_shake_mct H le stc minb maxb =
          acvp_hash_shake_mct H le' stc minb maxb) := by
  refine ⟨shakeRightmost_eq, ?_, shakeInitXofLen_eq, shakeNextXofLen_eq, ?_⟩
  · intro le md l h
    rw [shakeRightmost_eq]
    have h1 := listGetD_lt_256 md (l - 1) h
    have h2 := listGetD_lt_256 md (l - 2) h
    omega
  · intro H f stc minb maxb le le' hH hstr hmd hcip
    rw [acvp_hash_shake_mct_ok H f stc le minb maxb hH hstr hmd hcip,
      acvp_hash_shake_mct_ok H f stc le' minb maxb hH hstr hmd hcip]

theorem claim_C3_witness :
    shakeRightmostOutBits true [3, 4] 2 = [3, 4].getD 1 0 + 256 * [3, 4].getD 0 0
    ∧ shakeRightmostOutBits false [3, 4] 2 < 65536
    ∧ shakeInitXofLen 136 = 136 / 8
    ∧ shakeNextXofLen true 2 16 [3, 4] 2 = 2 + shakeCombineSpec [3, 4] % 16
    ∧ acvp_hash_shake_mct HC4fw true stcC4fw 16 136 =
        acvp_hash_shake_mct HC4fw false stcC4fw 16 136 :=
  ⟨claim_C3_shake_xof_derivation.1 true [3, 4] 2,
   claim_C3_shake_xof_derivation.2.1 false [3, 4] 2 (by decide),
   claim_C3_shake_xof_derivation.2.2.1 136,
   claim_C3_shake_xof_derivation.2.2.2.1 true 2 16 [3, 4],
   claim_C3_shake_xof_derivation.2.2.2.2 HC4fw fC4w stcC4fw 16 136 true false
     (fun _ => rfl)
     (fun _ _ => by norm_num [fC4w, ACVP_HASH_XOF_MD_STR_MAX, ACVP_HASH_XOF_MD_BYTE_MAX])
     rfl (Or.inl rfl)⟩
